import Mathlib

/-!
Verification of the template engine in `src/template_engine.py`
(`TemplateNode`, `TemplateDefinition`, `RenderedNode`).

The engine works on JSON-like Python data (nested dicts, lists, scalars,
`None`).  We embed those values as the inductive type `Value`; Python
`None` is `Value.null`.  Python dicts are embedded as association lists
of entries: lookups (`payload.get(k)`, `payload.get(k, d)`) read the
first binding, matching Python dicts whose keys are unique.  The
generation-flag dictionaries, which are built with `dict.update` where
later bindings overwrite earlier ones, are modelled as the flat sequence
of bindings in emission order: the final dict maps a key to the *last*
binding emitted for it (`dictGet`), and its key set is the set of emitted
keys (`dictKeys`).  Python sets (`enabled_generations`) are modelled as
the flat list of added elements, read through membership.

All functions are translated line by line from the Python source; the
few places where the Python dynamic typing admits values outside the
dataclass's declared field types (e.g. a non-integer `limit`) are noted
in comments at the definition.
-/

namespace TemplateEngine

/-- JSON-like Python value: `None`, booleans, integers, strings, lists and
string-keyed dicts (association lists). -/
inductive Value where
  | null
  | bool (b : Bool)
  | int (n : Int)
  | str (s : String)
  | list (items : List Value)
  | map (entries : List (String × Value))

/-- Python `x is None`. -/
def Value.isNull : Value → Bool
  | .null => true
  | _ => false

/-- Python `isinstance(x, Mapping)`. -/
def Value.isMap : Value → Bool
  | .map _ => true
  | _ => false

/-- Python `isinstance(x, list)`. -/
def Value.isList : Value → Bool
  | .list _ => true
  | _ => false

/-- Python truthiness of a value (`bool(x)` / use in `or` and `if`). -/
def pyTruthy : Value → Bool
  | .null => false
  | .bool b => b
  | .int n => n != 0
  | .str s => s != ""
  | .list l => !l.isEmpty
  | .map m => !m.isEmpty

/-- Python `x or y`: the first operand when truthy, otherwise the second. -/
def pyOr (x y : Value) : Value :=
  if pyTruthy x then x else y

/-- Lookup in an embedded dict: first binding for the key, if any. -/
def mapLookup : List (String × Value) → String → Option Value
  | [], _ => none
  | (k, v) :: rest, key => if k = key then some v else mapLookup rest key

/-- Python `m.get(key)`: the bound value, or `None` when the key is absent. -/
def mapGet (m : List (String × Value)) (k : String) : Value :=
  (mapLookup m k).getD Value.null

/-- Python `m.get(key, default)`: the bound value (even when it is `None`),
or `default` when the key is absent. -/
def mapGetD (m : List (String × Value)) (k : String) (d : Value) : Value :=
  (mapLookup m k).getD d

mutual
/-- Python `repr(x)` for embedded values (string escaping inside string
literals is not modelled; no claim depends on it). -/
def pyRepr : Value → String
  | .null => "None"
  | .bool true => "True"
  | .bool false => "False"
  | .int n => toString n
  | .str s => "'" ++ s ++ "'"
  | .list l => "[" ++ pyReprItems l ++ "]"
  | .map m => "\x7b" ++ pyReprEntries m ++ "\x7d"

/-- Comma-joined reprs of the elements of a list. -/
def pyReprItems : List Value → String
  | [] => ""
  | [v] => pyRepr v
  | v :: rest => pyRepr v ++ ", " ++ pyReprItems rest

/-- Comma-joined reprs of the entries of a dict. -/
def pyReprEntries : List (String × Value) → String
  | [] => ""
  | [(k, v)] => "'" ++ k ++ "': " ++ pyRepr v
  | (k, v) :: rest => "'" ++ k ++ "': " ++ pyRepr v ++ ", " ++ pyReprEntries rest
end

/-- Python `str(x)`: the string itself for strings, `repr`-like text for
everything else (`str(None) = "None"`, `str(True) = "True"`, ...). -/
def pyStr : Value → String
  | .str s => s
  | v => pyRepr v

/-- The `TemplateNode` dataclass: a configurable block or field within a
template definition.  Fields carry the types declared on the dataclass
(`path : List[str]`, `limit : Optional[int]`, ...). -/
inductive TemplateNode where
  | mk (id label : String) (path : List String) (type : String) (visible : Bool)
       (limit : Option Int) (data_source : String) (generation_id : Option String)
       (generation_enabled : Bool) (children : List TemplateNode)

def TemplateNode.id : TemplateNode → String
  | .mk i _ _ _ _ _ _ _ _ _ => i

def TemplateNode.label : TemplateNode → String
  | .mk _ l _ _ _ _ _ _ _ _ => l

def TemplateNode.path : TemplateNode → List String
  | .mk _ _ p _ _ _ _ _ _ _ => p

def TemplateNode.type : TemplateNode → String
  | .mk _ _ _ t _ _ _ _ _ _ => t

def TemplateNode.visible : TemplateNode → Bool
  | .mk _ _ _ _ v _ _ _ _ _ => v

def TemplateNode.limit : TemplateNode → Option Int
  | .mk _ _ _ _ _ l _ _ _ _ => l

def TemplateNode.data_source : TemplateNode → String
  | .mk _ _ _ _ _ _ d _ _ _ => d

def TemplateNode.generation_id : TemplateNode → Option String
  | .mk _ _ _ _ _ _ _ g _ _ => g

def TemplateNode.generation_enabled : TemplateNode → Bool
  | .mk _ _ _ _ _ _ _ _ g _ => g

def TemplateNode.children : TemplateNode → List TemplateNode
  | .mk _ _ _ _ _ _ _ _ _ c => c

/-- The `RenderedNode` dataclass: normalized node returned by the renderer. -/
structure RenderedNode where
  id : String
  name : String
  type : String
  value : Value

/-- `RenderedNode.to_dict`. -/
def RenderedNode.to_dict (r : RenderedNode) : Value :=
  Value.map [("id", .str r.id), ("name", .str r.name), ("type", .str r.type),
             ("value", r.value)]

mutual
/-- `TemplateNode.to_dict`, serializing a node (and recursively its
children) to the JSON-equivalent document shape. -/
def TemplateNode.to_dict : TemplateNode → Value
  | .mk i lab pa ty vis lim ds gid gen cs =>
    Value.map
      [("id", .str i),
       ("label", .str lab),
       ("path", .list (pa.map Value.str)),
       ("type", .str ty),
       ("visible", .bool vis),
       ("limit", match lim with | some k => .int k | none => .null),
       ("dataSource", .str ds),
       ("generationId", match gid with | some g => .str g | none => .null),
       ("generationEnabled", .bool gen),
       ("children", .list (toDictList cs))]

/-- Serialization of a list of children, in order. -/
def toDictList : List TemplateNode → List Value
  | [] => []
  | c :: rest => c.to_dict :: toDictList rest
end

/-- A value looked up in an embedded dict is structurally smaller than the
dict; used for the termination of `from_dict`. -/
theorem sizeOf_lt_of_mapLookup {m : List (String × Value)} {k : String} {v : Value}
    (h : mapLookup m k = some v) : sizeOf v < sizeOf (Value.map m) := by
  induction m with
  | nil => simp [mapLookup] at h
  | cons e rest ih =>
    obtain ⟨k', v'⟩ := e
    by_cases hk : k' = k
    · simp [mapLookup, hk] at h
      subst h
      simp
      omega
    · simp [mapLookup, hk] at h
      have := ih h
      simp [Value.map.sizeOf_spec] at this ⊢
      omega

/-- Extraction of the `path` field: Python stores `list(… or [])` as-is;
the dataclass declares `path : List[str]`, so we keep the string
elements (a payload with non-string path entries is outside the
declared field type). -/
def pathOfValue : Value → List String
  | .list l => l.filterMap (fun v => match v with | .str s => some s | _ => none)
  | _ => []

/-- Extraction of the `limit` field: the dataclass declares
`limit : Optional[int]`; `payload.get("limit")` yields `None` when the
key is absent or bound to `None`. -/
def limitOfValue : Value → Option Int
  | .int k => some k
  | _ => none

/-- Extraction of the `generation_id` field: the dataclass declares
`generation_id : Optional[str]`; the `or`-chain in `from_dict` yields
either a string or a falsy value (then stored as `None`-like absence
unless it is itself a string such as `""`). -/
def genIdOfValue : Value → Option String
  | .str s => some s
  | _ => none

mutual
/-- `TemplateNode.from_dict`, translated field by field:
`id = str(payload.get("id"))`,
`label = str(payload.get("label") or payload.get("name") or payload.get("id"))`,
`path = list(payload.get("path") or [])`,
`type = str(payload.get("type", "group"))`,
`visible = bool(payload.get("visible", True))`,
`limit = payload.get("limit")`,
`data_source = str(payload.get("data_source") or payload.get("dataSource") or "data")`,
`generation_id = payload.get("generation_id") or payload.get("generationId") or payload.get("generationID")`,
`generation_enabled = bool(payload.get("generation_enabled", payload.get("generationEnabled", True)))`,
`children = [from_dict(child) for child in payload.get("children", [])]`.
A payload that is not a mapping makes the Python code raise; we map it to
the node obtained from the empty mapping (outside the modelled domain). -/
def TemplateNode.from_dict : Value → TemplateNode
  | .map m =>
    .mk (pyStr (mapGet m "id"))
        (pyStr (pyOr (mapGet m "label") (pyOr (mapGet m "name") (mapGet m "id"))))
        (pathOfValue (pyOr (mapGet m "path") (.list [])))
        (pyStr (mapGetD m "type" (.str "group")))
        (pyTruthy (mapGetD m "visible" (.bool true)))
        (limitOfValue (mapGet m "limit"))
        (pyStr (pyOr (mapGet m "data_source") (pyOr (mapGet m "dataSource") (.str "data"))))
        (genIdOfValue (pyOr (mapGet m "generation_id")
          (pyOr (mapGet m "generationId") (mapGet m "generationID"))))
        (pyTruthy (mapGetD m "generation_enabled" (mapGetD m "generationEnabled" (.bool true))))
        (match h : mapLookup m "children" with
         | some (Value.list l) => fromDictList l
         | some _ => []
         | none => [])
  | _ =>
    .mk "None" "None" [] "group" true none "data" none true []
termination_by payload => sizeOf payload
decreasing_by
  have h1 := sizeOf_lt_of_mapLookup h
  simp at h1 ⊢
  omega

/-- Deserialization of a list of child payloads, in order. -/
def fromDictList : List Value → List TemplateNode
  | [] => []
  | v :: vs => TemplateNode.from_dict v :: fromDictList vs
termination_by l => sizeOf l
decreasing_by
  all_goals simp
  omega
end

mutual
/-- `TemplateNode.has_generation_controls(visible_ancestor)`:
`current_visible = visible_ancestor and self.visible`; true when
`current_visible and self.generation_id is not None`, else any child. -/
def TemplateNode.has_generation_controls : TemplateNode → Bool → Bool
  | .mk _ _ _ _ vis _ _ gid _ cs, visAnc =>
    let currentVisible := visAnc && vis
    if currentVisible && gid.isSome then true
    else hasControlsList cs currentVisible

/-- `any(child.has_generation_controls(current_visible) for child in children)`. -/
def hasControlsList : List TemplateNode → Bool → Bool
  | [], _ => false
  | c :: rest, v => c.has_generation_controls v || hasControlsList rest v
end

mutual
/-- `TemplateNode.has_generation_id`: true when this node or any
descendant has `generation_id is not None` (visibility plays no role). -/
def TemplateNode.has_generation_id : TemplateNode → Bool
  | .mk _ _ _ _ _ _ _ gid _ cs =>
    if gid.isSome then true else hasGenIdList cs

/-- `any(child.has_generation_id() for child in children)`. -/
def hasGenIdList : List TemplateNode → Bool
  | [] => false
  | c :: rest => c.has_generation_id || hasGenIdList rest
end

mutual
/-- `TemplateNode.generation_flags(visible_ancestor)`, modelled as the flat
sequence of dict bindings in emission order (own binding first, then the
children's, in order); `dict.update` overwriting is recovered by reading
the sequence with `dictGet` (last binding wins).  The Python guard is
`if self.generation_id:` — a truthiness test, so a `generation_id` that
is the empty string emits no binding. -/
def TemplateNode.generation_flags : TemplateNode → Bool → List (String × Bool)
  | .mk _ _ _ _ vis _ _ gid gen cs, visAnc =>
    let currentVisible := visAnc && vis
    (match gid with
     | some g => if g = "" then [] else [(g, currentVisible && gen)]
     | none => []) ++ flagsList cs currentVisible

/-- Bindings contributed by a list of children, in order. -/
def flagsList : List TemplateNode → Bool → List (String × Bool)
  | [], _ => []
  | c :: rest, v => c.generation_flags v ++ flagsList rest v
end

mutual
/-- `TemplateNode.enabled_generations(visible_ancestor)`, modelled as the
flat sequence of elements added to the Python set (read through
membership).  The guard is
`if current_visible and self.generation_id and self.generation_enabled:`
— again a truthiness test on `generation_id`. -/
def TemplateNode.enabled_generations : TemplateNode → Bool → List String
  | .mk _ _ _ _ vis _ _ gid gen cs, visAnc =>
    let currentVisible := visAnc && vis
    (match gid with
     | some g => if currentVisible && g != "" && gen then [g] else []
     | none => []) ++ enabledList cs currentVisible

/-- Elements contributed by a list of children, in order. -/
def enabledList : List TemplateNode → Bool → List String
  | [], _ => []
  | c :: rest, v => c.enabled_generations v ++ enabledList rest v
end

/-- Final value of a key in a dict built by successive overwriting updates,
given the flat sequence of bindings: the last binding for the key. -/
def dictGet (l : List (String × Bool)) (k : String) : Option Bool :=
  ((l.filter (fun p => p.1 = k)).getLast?).map Prod.snd

/-- Key set of such a dict: the emitted keys. -/
def dictKeys (l : List (String × Bool)) : List String :=
  l.map Prod.fst

/-- `TemplateNode._resolve_context` path walk: starting from the context,
each path segment requires the current target to be a mapping (else the
walk returns `None`), then steps to `target.get(key)` (which is `None`
for a missing key; a subsequent segment then fails the mapping test). -/
def walkPath : Value → List String → Value
  | t, [] => t
  | t, k :: ks =>
    match t with
    | .map m => walkPath (mapGet m k) ks
    | _ => .null

/-- `TemplateNode._resolve_context(context, openapi_data)`: a node with
`data_source == "openapi"` yields the auxiliary data in its entirety
(neither `context` nor `path` is consulted); otherwise the path is
walked from `context` (the `if self.path:` guard in the source is
behaviourally redundant, as walking an empty path returns the context). -/
def resolveContextCore (ds : String) (pa : List String) (context aux : Value) : Value :=
  if ds = "openapi" then aux else walkPath context pa

/-- `TemplateNode._resolve_context` as a method. -/
def TemplateNode.resolveContext (n : TemplateNode) (context aux : Value) : Value :=
  resolveContextCore n.data_source n.path context aux

/-- Python list slicing `l[:k]`, including a negative `k`
(`l[:-2]` drops the last two elements). -/
def pyTake (l : List Value) (k : Int) : List Value :=
  if 0 ≤ k then l.take k.toNat else l.take (l.length - (-k).toNat)

/-- `TemplateNode._limit_items` restricted to list values:
`value[:limit]` when a limit is set, the list unchanged otherwise
(non-list values pass through untouched at the call sites). -/
def limitItems (lim : Option Int) (l : List Value) : List Value :=
  match lim with
  | none => l
  | some k => pyTake l k

/-- `child_map[name] = value` on a Python dict: overwrite in place when the
key exists (keeping its position), append otherwise. -/
def dictInsert (d : List (String × Value)) (k : String) (v : Value) : List (String × Value) :=
  if d.any (fun p => p.1 = k) then d.map (fun p => if p.1 = k then (k, v) else p)
  else d ++ [(k, v)]

/-- Builds a Python dict by inserting the given bindings in order. -/
def buildDict : List (String × Value) → List (String × Value) → List (String × Value)
  | [], acc => acc
  | (k, v) :: rest, acc => buildDict rest (dictInsert acc k v)

mutual
/-- `TemplateNode.render(root_data, openapi_data, context)`:
returns `None` for an invisible node; resolves the context value
(`context_data = root_data if context is None else context`); returns
`None` when the resolved value is `None`; with children it renders a
list of per-element child maps (for a list value, iterating the
truncated list and skipping non-mapping elements and elements whose
child map is empty) or a single child map (otherwise), returning `None`
when nothing was produced; a leaf returns the resolved value itself,
truncated when it is a list. -/
def TemplateNode.render : TemplateNode → Value → Value → Value → Option RenderedNode
  | .mk i lab pa ty vis lim ds _gid _gen cs, root, aux, ctx =>
    if vis then
      let contextData := if ctx.isNull then root else ctx
      let currentValue := resolveContextCore ds pa contextData aux
      if currentValue.isNull then none
      else
        match cs, currentValue with
        | [], _ =>
          let v := match currentValue with
                   | Value.list l => Value.list (limitItems lim l)
                   | v => v
          some ⟨i, lab, ty, v⟩
        | c0 :: cs0, Value.list l =>
          let renderedChildren := renderListEntries (c0 :: cs0) root aux (limitItems lim l)
          if renderedChildren.isEmpty then none
          else some ⟨i, lab, ty, Value.list (renderedChildren.map Value.map)⟩
        | c0 :: cs0, v =>
          let childMap := buildDict (renderedPairs (c0 :: cs0) root aux v) []
          if childMap.isEmpty then none
          else some ⟨i, lab, ty, Value.map childMap⟩
    else none
termination_by n _ _ _ => (sizeOf n, 0, 0)

/-- The per-element loop of the list branch: non-mapping elements are
skipped (`continue`), and an element whose rendered child map is empty
is dropped; qualifying child maps are collected in order. -/
def renderListEntries : List TemplateNode → Value → Value → List Value → List (List (String × Value))
  | _, _, _, [] => []
  | cs, root, aux, e :: es =>
    match e with
    | Value.map _ =>
      let m := buildDict (renderedPairs cs root aux e) []
      if m.isEmpty then renderListEntries cs root aux es
      else m :: renderListEntries cs root aux es
    | _ => renderListEntries cs root aux es
termination_by cs _ _ es => (sizeOf cs, 1, sizeOf es)

/-- The child loop: each child is rendered against the given context and
non-`None` results contribute `(label, value)` bindings, in order. -/
def renderedPairs : List TemplateNode → Value → Value → Value → List (String × Value)
  | [], _, _, _ => []
  | c :: rest, root, aux, ctx =>
    match c.render root aux ctx with
    | some r => (r.name, r.value) :: renderedPairs rest root aux ctx
    | none => renderedPairs rest root aux ctx
termination_by cs _ _ _ => (sizeOf cs, 0, 0)
end

/-- The `TemplateDefinition` dataclass: top-level template representation. -/
structure TemplateDefinition where
  name : String
  blocks : List TemplateNode

/-- `TemplateDefinition.from_dict`. -/
def TemplateDefinition.from_dict : Value → TemplateDefinition
  | .map m =>
    ⟨pyStr (pyOr (mapGet m "name") (.str "API Page Template")),
     match mapLookup m "blocks" with
     | some (Value.list l) => fromDictList l
     | _ => []⟩
  | _ => ⟨"API Page Template", []⟩

/-- `TemplateDefinition.to_dict`. -/
def TemplateDefinition.to_dict (t : TemplateDefinition) : Value :=
  Value.map [("name", .str t.name), ("blocks", .list (toDictList t.blocks))]

/-- `TemplateDefinition.has_generation_controls`:
`any(block.has_generation_controls() for block in blocks)` (the method
parameter `visible_ancestor` defaults to `True`). -/
def TemplateDefinition.has_generation_controls (t : TemplateDefinition) : Bool :=
  t.blocks.any (fun b => b.has_generation_controls true)

/-- `TemplateDefinition.has_generation_ids`:
`any(block.has_generation_id() for block in blocks)`. -/
def TemplateDefinition.has_generation_ids (t : TemplateDefinition) : Bool :=
  t.blocks.any (fun b => b.has_generation_id)

/-- `TemplateDefinition.enabled_generations`: the union of the blocks'
sets, modelled as the concatenated element sequence. -/
def TemplateDefinition.enabled_generations (t : TemplateDefinition) : List String :=
  enabledList t.blocks true

/-- `TemplateDefinition.generation_flags`: successive `dict.update` over
the blocks' flag dicts, modelled as the concatenated binding sequence. -/
def TemplateDefinition.generation_flags (t : TemplateDefinition) : List (String × Bool) :=
  flagsList t.blocks true

/-- `TemplateDefinition.render(page_data, openapi_data)`: each block is
rendered with `context = page_data`; non-`None` results are kept, in
declared order, as their dict forms. -/
def TemplateDefinition.render (t : TemplateDefinition) (pageData openapiData : Value) : List Value :=
  t.blocks.filterMap (fun b => (b.render pageData openapiData pageData).map RenderedNode.to_dict)

mutual
/-- Specification-side traversal: the nodes of a subtree in preorder, each
paired with its inherited visibility (`visible_ancestor AND` the
conjunction of `visible` along the path from the root of the
traversal). -/
def TemplateNode.subnodesV : TemplateNode → Bool → List (TemplateNode × Bool)
  | n@(.mk _ _ _ _ vis _ _ _ _ cs), visAnc =>
    (n, visAnc && vis) :: subnodesVList cs (visAnc && vis)

/-- Preorder traversal of a list of subtrees, in order. -/
def subnodesVList : List TemplateNode → Bool → List (TemplateNode × Bool)
  | [], _ => []
  | c :: rest, v => c.subnodesV v ++ subnodesVList rest v
end

/-- All nodes of a template definition in preorder, paired with their
inherited visibility (initialized to `true` at the roots). -/
def TemplateDefinition.allNodesV (t : TemplateDefinition) : List (TemplateNode × Bool) :=
  subnodesVList t.blocks true

mutual
/-- The nodes of a subtree in preorder, without visibility annotations. -/
def TemplateNode.subnodes : TemplateNode → List TemplateNode
  | n@(.mk _ _ _ _ _ _ _ _ _ cs) => n :: subnodesList cs

/-- Preorder node list of a list of subtrees. -/
def subnodesList : List TemplateNode → List TemplateNode
  | [] => []
  | c :: rest => c.subnodes ++ subnodesList rest
end

/-- All nodes of a template definition in preorder. -/
def TemplateDefinition.allNodes (t : TemplateDefinition) : List TemplateNode :=
  subnodesList t.blocks

/-- The binding that a traversed node contributes to `generation_flags`:
nodes whose `generation_id` is truthy (present and non-empty) contribute
`(generation_id, inherited visibility AND generation_enabled)`. -/
def flagOfPair (p : TemplateNode × Bool) : Option (String × Bool) :=
  match p.1.generation_id with
  | some g => if g = "" then none else some (g, p.2 && p.1.generation_enabled)
  | none => none

/-- The element that a traversed node contributes to
`enabled_generations`. -/
def enabledOfPair (p : TemplateNode × Bool) : Option String :=
  match p.1.generation_id with
  | some g => if p.2 && g != "" && p.1.generation_enabled then some g else none
  | none => none

mutual
/-- Every declaration of `gid` inside this subtree lies at or beneath an
invisible node: either the subtree root is invisible (masking everything
below), or it does not itself declare `gid` and every child subtree is
masked for `gid`. -/
def maskedIn (gid : String) : TemplateNode → Bool
  | .mk _ _ _ _ vis _ _ ngid _ cs =>
    !vis || (ngid != some gid && maskedInList gid cs)

/-- `maskedIn` on every subtree of a list. -/
def maskedInList (gid : String) : List TemplateNode → Bool
  | [] => true
  | c :: rest => maskedIn gid c && maskedInList gid rest
end

mutual
/-- Well-formedness for the round-trip: the truthiness-based `or`-chains
in `from_dict` conflate the empty string with absence, so a faithful
round trip needs `label`, `data_source` and any declared `generation_id`
to be non-empty, recursively through the children. -/
def wfNode : TemplateNode → Bool
  | .mk _ lab _ _ _ _ ds gid _ cs =>
    lab != "" && ds != "" && gid != some "" && wfNodeList cs

/-- `wfNode` on every node of a list. -/
def wfNodeList : List TemplateNode → Bool
  | [] => true
  | c :: rest => wfNode c && wfNodeList rest
end

/-- A string value. -/
def isStrV : Value → Bool
  | .str _ => true
  | _ => false

/-- A non-empty string value. -/
def nonemptyStrV : Value → Bool
  | .str s => s != ""
  | _ => false

/-- A boolean value. -/
def isBoolV : Value → Bool
  | .bool _ => true
  | _ => false

/-- A canonical serialized `limit`: null or an integer. -/
def limitV : Value → Bool
  | .null => true
  | .int _ => true
  | _ => false

/-- A canonical serialized `generationId`: null or a non-empty string. -/
def gidV : Value → Bool
  | .null => true
  | .str g => g != ""
  | _ => false

/-- A canonical serialized `path`: a list of strings. -/
def pathV : Value → Bool
  | .list pa => pa.all isStrV
  | _ => false

mutual
/-- Canonical node document: exactly the ten serialized keys in the order
produced by `to_dict`, with well-typed field values, non-empty `label`
and `dataSource`, `generationId` null or a non-empty string, `limit`
null or an integer, and canonical children. -/
def canonicalNodeDoc : Value → Bool
  | .map [e1, e2, e3, e4, e5, e6, e7, e8, e9, e10] =>
    (e1.1 == "id") && isStrV e1.2 &&
    (e2.1 == "label") && nonemptyStrV e2.2 &&
    (e3.1 == "path") && pathV e3.2 &&
    (e4.1 == "type") && isStrV e4.2 &&
    (e5.1 == "visible") && isBoolV e5.2 &&
    (e6.1 == "limit") && limitV e6.2 &&
    (e7.1 == "dataSource") && nonemptyStrV e7.2 &&
    (e8.1 == "generationId") && gidV e8.2 &&
    (e9.1 == "generationEnabled") && isBoolV e9.2 &&
    (e10.1 == "children") && childrenDocV e10.2
  | _ => false

/-- A canonical serialized `children`/`blocks` value: a list of canonical
node documents. -/
def childrenDocV : Value → Bool
  | .list cs => canonicalDocList cs
  | _ => false

/-- `canonicalNodeDoc` on every document of a list. -/
def canonicalDocList : List Value → Bool
  | [] => true
  | d :: rest => canonicalNodeDoc d && canonicalDocList rest
end

/-- Canonical definition document: `name` a non-empty string and `blocks`
a list of canonical node documents, in the order written by
`TemplateDefinition.to_dict`. -/
def canonicalDefDoc : Value → Bool
  | .map [e1, e2] =>
    (e1.1 == "name") && nonemptyStrV e1.2 && (e2.1 == "blocks") && childrenDocV e2.2
  | _ => false

/-- Well-formed definition: non-empty name and well-formed blocks. -/
def wfDef (t : TemplateDefinition) : Bool :=
  t.name != "" && wfNodeList t.blocks

/-- Replaces the `path` field of a node, leaving everything else
unchanged (used to state that a field plays no role). -/
def TemplateNode.setPath : TemplateNode → List String → TemplateNode
  | .mk i lab _ ty vis lim ds gid gen cs, pa => .mk i lab pa ty vis lim ds gid gen cs

mutual
/-- The flag dict built by `generation_flags` is exactly the preorder
traversal filtered through each node's contributed binding. -/
theorem generation_flags_eq (n : TemplateNode) (vis : Bool) :
    n.generation_flags vis = (n.subnodesV vis).filterMap flagOfPair := by
  match n with
  | .mk i lab pa ty visb lim ds gid gen cs =>
    simp only [TemplateNode.generation_flags, TemplateNode.subnodesV, List.filterMap_cons,
      flagsList_eq cs (vis && visb)]
    cases gid with
    | none => simp [flagOfPair, TemplateNode.generation_id]
    | some g =>
      by_cases hg : g = "" <;>
        simp [flagOfPair, TemplateNode.generation_id, TemplateNode.generation_enabled, hg]
termination_by (sizeOf n, 0)

/-- List version of `generation_flags_eq`. -/
theorem flagsList_eq (cs : List TemplateNode) (v : Bool) :
    flagsList cs v = (subnodesVList cs v).filterMap flagOfPair := by
  match cs with
  | [] => rw [flagsList, subnodesVList]; simp
  | c :: rest =>
    rw [flagsList, subnodesVList, List.filterMap_append,
      generation_flags_eq c v, flagsList_eq rest v]
termination_by (sizeOf cs, 1)
end

mutual
/-- The set built by `enabled_generations` is exactly the preorder
traversal filtered through each node's contributed element. -/
theorem enabled_generations_eq (n : TemplateNode) (vis : Bool) :
    n.enabled_generations vis = (n.subnodesV vis).filterMap enabledOfPair := by
  match n with
  | .mk i lab pa ty visb lim ds gid gen cs =>
    simp only [TemplateNode.enabled_generations, TemplateNode.subnodesV, List.filterMap_cons,
      enabledList_eq cs (vis && visb)]
    cases gid with
    | none => simp [enabledOfPair, TemplateNode.generation_id]
    | some g =>
      by_cases hc : (vis && visb) && g != "" && gen <;>
        simp [enabledOfPair, TemplateNode.generation_id, TemplateNode.generation_enabled,
          hc] at *
termination_by (sizeOf n, 0)

/-- List version of `enabled_generations_eq`. -/
theorem enabledList_eq (cs : List TemplateNode) (v : Bool) :
    enabledList cs v = (subnodesVList cs v).filterMap enabledOfPair := by
  match cs with
  | [] => rw [enabledList, subnodesVList]; simp
  | c :: rest =>
    rw [enabledList, subnodesVList, List.filterMap_append,
      enabled_generations_eq c v, enabledList_eq rest v]
termination_by (sizeOf cs, 1)
end

mutual
/-- The node components of the annotated preorder traversal do not depend
on the inherited visibility and are the plain preorder traversal. -/
theorem subnodesV_fst (n : TemplateNode) (vis : Bool) :
    (n.subnodesV vis).map Prod.fst = n.subnodes := by
  match n with
  | .mk i lab pa ty visb lim ds gid gen cs =>
    simp only [TemplateNode.subnodesV, TemplateNode.subnodes, List.map_cons,
      subnodesVList_fst cs (vis && visb)]
termination_by (sizeOf n, 0)

/-- List version of `subnodesV_fst`. -/
theorem subnodesVList_fst (cs : List TemplateNode) (v : Bool) :
    (subnodesVList cs v).map Prod.fst = subnodesList cs := by
  match cs with
  | [] => rw [subnodesVList, subnodesList]; simp
  | c :: rest =>
    rw [subnodesVList, subnodesList, List.map_append, subnodesV_fst c v,
      subnodesVList_fst rest v]
termination_by (sizeOf cs, 1)
end

mutual
/-- With inherited visibility `false`, every traversed pair carries
visibility `false`. -/
theorem subnodesV_false (n : TemplateNode) :
    ∀ p ∈ n.subnodesV false, p.2 = false := by
  match n with
  | .mk i lab pa ty visb lim ds gid gen cs =>
    intro p hp
    simp only [TemplateNode.subnodesV, Bool.false_and, List.mem_cons] at hp
    rcases hp with h | h
    · rw [h]
    · exact subnodesVList_false cs p h
termination_by (sizeOf n, 0)

/-- List version of `subnodesV_false`. -/
theorem subnodesVList_false (cs : List TemplateNode) :
    ∀ p ∈ subnodesVList cs false, p.2 = false := by
  match cs with
  | [] => intro p hp; rw [subnodesVList] at hp; simp at hp
  | c :: rest =>
    intro p hp
    rw [subnodesVList] at hp
    rcases List.mem_append.mp hp with h | h
    · exact subnodesV_false c p h
    · exact subnodesVList_false rest p h
termination_by (sizeOf cs, 1)
end

mutual
/-- `has_generation_id` is the existence of a declared `generation_id`
anywhere in the preorder traversal. -/
theorem has_generation_id_eq (n : TemplateNode) :
    n.has_generation_id = n.subnodes.any (fun m => m.generation_id.isSome) := by
  match n with
  | .mk i lab pa ty visb lim ds gid gen cs =>
    simp only [TemplateNode.has_generation_id, TemplateNode.subnodes, List.any_cons,
      hasGenIdList_eq cs, TemplateNode.generation_id]
    cases gid <;> simp
termination_by (sizeOf n, 0)

/-- List version of `has_generation_id_eq`. -/
theorem hasGenIdList_eq (cs : List TemplateNode) :
    hasGenIdList cs = (subnodesList cs).any (fun m => m.generation_id.isSome) := by
  match cs with
  | [] => rw [hasGenIdList, subnodesList]; simp
  | c :: rest =>
    rw [hasGenIdList, subnodesList, List.any_append, has_generation_id_eq c,
      hasGenIdList_eq rest]
termination_by (sizeOf cs, 1)
end

mutual
/-- `has_generation_controls` is the existence, in the annotated preorder
traversal, of a node declaring a `generation_id` whose inherited
visibility is `true`. -/
theorem has_generation_controls_eq (n : TemplateNode) (vis : Bool) :
    n.has_generation_controls vis
      = (n.subnodesV vis).any (fun p => p.2 && p.1.generation_id.isSome) := by
  match n with
  | .mk i lab pa ty visb lim ds gid gen cs =>
    simp only [TemplateNode.has_generation_controls, TemplateNode.subnodesV, List.any_cons,
      hasControlsList_eq cs (vis && visb), TemplateNode.generation_id]
    by_cases hc : (vis && visb) && gid.isSome <;> simp [hc] at *
termination_by (sizeOf n, 0)

/-- List version of `has_generation_controls_eq`. -/
theorem hasControlsList_eq (cs : List TemplateNode) (v : Bool) :
    hasControlsList cs v
      = (subnodesVList cs v).any (fun p => p.2 && p.1.generation_id.isSome) := by
  match cs with
  | [] => rw [hasControlsList, subnodesVList]; simp
  | c :: rest =>
    rw [hasControlsList, subnodesVList, List.any_append, has_generation_controls_eq c v,
      hasControlsList_eq rest v]
termination_by (sizeOf cs, 1)
end

mutual
/-- In a subtree masked for `gid`, every traversed declaration of `gid`
carries inherited visibility `false`. -/
theorem maskedIn_spec (gid : String) (n : TemplateNode) (hm : maskedIn gid n = true)
    (vis : Bool) : ∀ p ∈ n.subnodesV vis, p.1.generation_id = some gid → p.2 = false := by
  match n with
  | .mk i lab pa ty visb lim ds ngid gen cs =>
    intro p hp hgid
    rw [maskedIn] at hm
    rcases Bool.or_eq_true_iff.mp hm with hinv | hrest
    · have hv : visb = false := by
        cases visb
        · rfl
        · simp at hinv
      subst hv
      rw [TemplateNode.subnodesV] at hp
      simp only [Bool.and_false, List.mem_cons] at hp
      rcases hp with h | h
      · rw [h]
      · exact subnodesVList_false cs p h
    · have hne : ngid ≠ some gid := by
        intro he
        simp [he] at hrest
      have hmask : maskedInList gid cs = true := (Bool.and_eq_true_iff.mp hrest).2
      rw [TemplateNode.subnodesV] at hp
      rcases List.mem_cons.mp hp with h | h
      · rw [h] at hgid
        simp only [TemplateNode.generation_id] at hgid
        exact absurd hgid hne
      · exact maskedInList_spec gid cs hmask (vis && visb) p h hgid
termination_by (sizeOf n, 0)

/-- List version of `maskedIn_spec`. -/
theorem maskedInList_spec (gid : String) (cs : List TemplateNode)
    (hm : maskedInList gid cs = true) (v : Bool) :
    ∀ p ∈ subnodesVList cs v, p.1.generation_id = some gid → p.2 = false := by
  match cs with
  | [] => intro p hp; rw [subnodesVList] at hp; simp at hp
  | c :: rest =>
    intro p hp hgid
    rw [maskedInList] at hm
    rw [subnodesVList] at hp
    rcases List.mem_append.mp hp with h | h
    · exact maskedIn_spec gid c (Bool.and_eq_true_iff.mp hm).1 v p h hgid
    · exact maskedInList_spec gid rest (Bool.and_eq_true_iff.mp hm).2 v p h hgid
termination_by (sizeOf cs, 1)
end

/-- An element delivered by `getLast?` is an element of the list. -/
theorem lastMem {α : Type} : ∀ {l : List α} {a : α}, l.getLast? = some a → a ∈ l := by
  intro l
  induction l with
  | nil => intro a h; simp at h
  | cons x xs ih =>
    intro a h
    cases xs with
    | nil =>
      rw [List.getLast?_singleton] at h
      have hx : x = a := by simpa using h
      simp [hx]
    | cons y ys =>
      rw [List.getLast?_cons_cons] at h
      exact List.mem_cons_of_mem x (ih h)

/-- A value read out of the modelled dict comes from one of its bindings
for that key. -/
theorem dictGet_mem {fl : List (String × Bool)} {k : String} {b : Bool}
    (h : dictGet fl k = some b) : (k, b) ∈ fl := by
  unfold dictGet at h
  cases hl : (fl.filter (fun p => p.1 = k)).getLast? with
  | none => rw [hl] at h; simp at h
  | some q =>
    rw [hl] at h
    have hq := lastMem hl
    rw [List.mem_filter] at hq
    have h1 : q.1 = k := by
      have := hq.2
      simpa using this
    have h2 : q.2 = b := by simpa using h
    have : q = (k, b) := by
      cases q
      simp_all
    exact this ▸ hq.1

/-- A key among the dict's bindings is found by `dictGet`. -/
theorem dictGet_isSome {fl : List (String × Bool)} {k : String} {b : Bool}
    (h : (k, b) ∈ fl) : ∃ c, dictGet fl k = some c := by
  unfold dictGet
  have hmem : (k, b) ∈ fl.filter (fun p => p.1 = k) := by
    rw [List.mem_filter]
    exact ⟨h, by simp⟩
  have hne : fl.filter (fun p => p.1 = k) ≠ [] := by
    intro he
    rw [he] at hmem
    simp at hmem
  cases hg : (fl.filter (fun p => p.1 = k)).getLast? with
  | none => exact absurd (List.getLast?_eq_none_iff.mp hg) hne
  | some q => exact ⟨q.2, rfl⟩

/-- In a subtree whose root is invisible, every traversed pair carries
inherited visibility `false`. -/
theorem subnodesV_invisible (n : TemplateNode) (vis : Bool) (h : n.visible = false) :
    ∀ q ∈ n.subnodesV vis, q.2 = false := by
  match n with
  | .mk i lab pa ty visb lim ds gid gen cs =>
    simp only [TemplateNode.visible] at h
    subst h
    intro q hq
    rw [TemplateNode.subnodesV] at hq
    simp only [Bool.and_false, List.mem_cons] at hq
    rcases hq with h | h
    · rw [h]
    · exact subnodesVList_false cs q h

/-- Unpacking a binding contributed through `flagOfPair`. -/
theorem flagOfPair_some {q : TemplateNode × Bool} {p : String × Bool}
    (h : flagOfPair q = some p) :
    q.1.generation_id = some p.1 ∧ p.1 ≠ "" ∧ p.2 = (q.2 && q.1.generation_enabled) := by
  unfold flagOfPair at h
  cases hg : q.1.generation_id with
  | none => rw [hg] at h; simp at h
  | some g =>
    rw [hg] at h
    by_cases he : g = ""
    · simp [he] at h
    · simp only [he, if_false] at h
      have hp : (g, q.2 && q.1.generation_enabled) = p := by simpa using h
      subst hp
      exact ⟨rfl, he, rfl⟩

/-- Unpacking an element contributed through `enabledOfPair`. -/
theorem enabledOfPair_some {q : TemplateNode × Bool} {s : String}
    (h : enabledOfPair q = some s) :
    q.1.generation_id = some s ∧ s ≠ "" ∧ q.2 = true ∧ q.1.generation_enabled = true := by
  unfold enabledOfPair at h
  cases hg : q.1.generation_id with
  | none => rw [hg] at h; simp at h
  | some g =>
    rw [hg] at h
    by_cases hc : q.2 && g != "" && q.1.generation_enabled
    · simp only [hc, if_true] at h
      have hgs : g = s := by simpa using h
      subst hgs
      simp only [Bool.and_eq_true, bne_iff_ne, ne_eq] at hc
      exact ⟨rfl, hc.1.2, hc.1.1, hc.2⟩
    · simp [hc] at h

/-- A pair with inherited visibility `false` contributes no enabled
element. -/
theorem enabledOfPair_none {q : TemplateNode × Bool} (h : q.2 = false) :
    enabledOfPair q = none := by
  unfold enabledOfPair
  cases q.1.generation_id with
  | none => rfl
  | some g => simp [h]

/-- Concrete tree for the claim-C1 counterexample: an invisible block and a
visible block both declaring generation id `"x"`. -/
def cxInvisible : TemplateNode :=
  .mk "A" "A" [] "group" false none "data" (some "x") true []

/-- Visible sibling declaring the same generation id. -/
def cxVisible : TemplateNode :=
  .mk "B" "B" [] "group" true none "data" (some "x") true []

/-- Two-block tree: `"x"` is declared inside the invisible block's subtree
and again outside it. -/
def cxMaskTree : TemplateDefinition :=
  ⟨"cx", [cxInvisible, cxVisible]⟩

/-- C1, counterexample to the claim as stated: in `cxMaskTree` the
invisible node `cxInvisible` declares `"x"` in its subtree, yet the
root-level `generation_flags()` maps `"x"` to `true` (the visible
sibling's binding overwrites it) and `enabled_generations()` contains
`"x"`. -/
theorem C1_cex :
    cxInvisible ∈ cxMaskTree.blocks ∧ cxInvisible.visible = false ∧
    cxInvisible.generation_id = some "x" ∧
    dictGet cxMaskTree.generation_flags "x" = some true ∧
    "x" ∈ cxMaskTree.enabled_generations := by
  refine ⟨?_, rfl, rfl, ?_, ?_⟩
  · simp [cxMaskTree]
  · rfl
  · simp [cxMaskTree, cxInvisible, cxVisible, TemplateDefinition.enabled_generations,
      enabledList, TemplateNode.enabled_generations]

/-- C1 (amended): an invisible node masks its own subtree — every flag
binding contributed below it is `false` and it enables nothing, whatever
the inherited visibility; and at the root, whenever every declaration of
a generation id in the whole tree lies at or beneath an invisible node
(`maskedInList`), root-level `generation_flags()` carries only `false`
bindings for it (so looking it up never yields `true`) and
`enabled_generations()` omits it.  The claim as frozen fails only when
the same generation id is also declared outside the invisible subtree,
as in `C1_cex`. -/
theorem C1_masking (t : TemplateDefinition) (n : TemplateNode) (vis : Bool)
    (gid : String) (hinv : n.visible = false)
    (hmask : maskedInList gid t.blocks = true) :
    (∀ p ∈ n.generation_flags vis, p.2 = false) ∧
    n.enabled_generations vis = [] ∧
    (∀ p ∈ t.generation_flags, p.1 = gid → p.2 = false) ∧
    dictGet t.generation_flags gid ≠ some true ∧
    gid ∉ t.enabled_generations := by
  have hall : ∀ p ∈ t.generation_flags, p.1 = gid → p.2 = false := by
    intro p hp hpk
    rw [TemplateDefinition.generation_flags, flagsList_eq] at hp
    rcases List.mem_filterMap.mp hp with ⟨q, hq, hfq⟩
    rcases flagOfPair_some hfq with ⟨hgid, _, hval⟩
    rw [hpk] at hgid
    rw [hval, maskedInList_spec gid t.blocks hmask true q hq hgid]
    rfl
  refine ⟨?_, ?_, hall, ?_, ?_⟩
  · intro p hp
    rw [generation_flags_eq] at hp
    rcases List.mem_filterMap.mp hp with ⟨q, hq, hfq⟩
    rcases flagOfPair_some hfq with ⟨_, _, hval⟩
    rw [hval, subnodesV_invisible n vis hinv q hq]
    rfl
  · rw [enabled_generations_eq, List.filterMap_eq_nil_iff]
    intro q hq
    exact enabledOfPair_none (subnodesV_invisible n vis hinv q hq)
  · intro hsome
    have hm := dictGet_mem hsome
    have := hall (gid, true) hm rfl
    simp at this
  · intro hmem
    rw [TemplateDefinition.enabled_generations, enabledList_eq] at hmem
    rcases List.mem_filterMap.mp hmem with ⟨q, hq, h⟩
    rcases enabledOfPair_some h with ⟨hgid, _, hq2, _⟩
    have := maskedInList_spec gid t.blocks hmask true q hq hgid
    rw [hq2] at this
    simp at this

/-- Single-block tree for the claim-C1 witness: just the invisible
declaring node. -/
def wMaskTree : TemplateDefinition := ⟨"w", [cxInvisible]⟩

/-- C1, witness: the amended statement instantiated on `wMaskTree`, where
`"x"` is declared only beneath the invisible node: its lookup is not
`true` and the enabled set omits it. -/
theorem C1_wit :
    cxInvisible.visible = false ∧ maskedInList "x" wMaskTree.blocks = true ∧
    (dictGet wMaskTree.generation_flags "x" ≠ some true ∧
      "x" ∉ wMaskTree.enabled_generations) :=
  ⟨rfl, rfl, (C1_masking wMaskTree cxInvisible true "x" rfl rfl).2.2.2⟩

/-- `hasGenIdList` is `any` of `has_generation_id` over the list. -/
theorem hasGenIdList_any (cs : List TemplateNode) :
    hasGenIdList cs = cs.any (fun c => c.has_generation_id) := by
  induction cs with
  | nil => rfl
  | cons c rest ih => rw [hasGenIdList, List.any_cons, ih]

/-- `hasControlsList` is `any` of `has_generation_controls` over the
list. -/
theorem hasControlsList_any (cs : List TemplateNode) (v : Bool) :
    hasControlsList cs v = cs.any (fun c => c.has_generation_controls v) := by
  induction cs with
  | nil => rfl
  | cons c rest ih => rw [hasControlsList, List.any_cons, ih]

/-- C4, counterexample to the claim as stated: in `wMaskTree` a node
declares a generation id, so `has_generation_ids()` is true, yet
`has_generation_controls()` is false, because the declaring node is
invisible — the two predicates are not both visibility-independent. -/
theorem C4_cex :
    cxInvisible ∈ wMaskTree.blocks ∧ cxInvisible.generation_id = some "x" ∧
    cxInvisible.visible = false ∧
    wMaskTree.has_generation_ids = true ∧
    wMaskTree.has_generation_controls = false := by
  exact ⟨by simp [wMaskTree], rfl, rfl, rfl, rfl⟩

/-- C4 (amended): `has_generation_ids()` is true exactly when some node
anywhere in the tree declares a `generationId`, independently of every
`visible` flag; `has_generation_controls()` is true exactly when some
node with inherited visibility `true` declares one (`is not None`, so
even an empty-string id counts for both). -/
theorem C4_detection (t : TemplateDefinition) :
    (t.has_generation_ids = true ↔
      ∃ n ∈ t.allNodes, n.generation_id.isSome = true) ∧
    (t.has_generation_controls = true ↔
      ∃ p ∈ t.allNodesV, p.2 = true ∧ p.1.generation_id.isSome = true) := by
  constructor
  · rw [TemplateDefinition.has_generation_ids, ← hasGenIdList_any, hasGenIdList_eq,
      TemplateDefinition.allNodes, List.any_eq_true]
  · rw [TemplateDefinition.has_generation_controls, ← hasControlsList_any,
      hasControlsList_eq, TemplateDefinition.allNodesV, List.any_eq_true]
    constructor
    · rintro ⟨p, hp, hc⟩
      exact ⟨p, hp, by simpa [Bool.and_eq_true] using hc⟩
    · rintro ⟨p, hp, h1, h2⟩
      exact ⟨p, hp, by simp [h1, h2]⟩

/-- Visible node declaring the empty-string generation id: declared for
`has_generation_id` (`is not None`) but skipped by the truthiness guard
of `generation_flags`. -/
def cxEmptyGid : TemplateNode :=
  .mk "E" "E" [] "group" true none "data" (some "") true []

/-- First declaration of `"y"`: visible and generation-enabled. -/
def cxDupA : TemplateNode :=
  .mk "F" "F" [] "group" true none "data" (some "y") true []

/-- Second declaration of `"y"`: visible but generation-disabled. -/
def cxDupB : TemplateNode :=
  .mk "G" "G" [] "group" true none "data" (some "y") false []

/-- Tree exercising the empty-string id and a duplicated id. -/
def cxFlagTree : TemplateDefinition :=
  ⟨"e", [cxEmptyGid, cxDupA, cxDupB]⟩

/-- C7, counterexample to the claim as stated: in `cxFlagTree` the node
`cxEmptyGid` declares generation id `""` yet `generation_flags()` has no
entry for it (the guard is a truthiness test); and `cxDupA` declares
`"y"` visible-and-enabled (so the claim prescribes a `true` entry) yet
the entry for `"y"` is `false` — the later declaration overwrote it. -/
theorem C7_cex :
    cxEmptyGid ∈ cxFlagTree.blocks ∧ cxEmptyGid.generation_id = some "" ∧
    dictGet cxFlagTree.generation_flags "" = none ∧
    cxDupA ∈ cxFlagTree.blocks ∧ cxDupA.generation_id = some "y" ∧
    cxDupA.visible = true ∧ cxDupA.generation_enabled = true ∧
    dictGet cxFlagTree.generation_flags "y" = some false := by
  exact ⟨by simp [cxFlagTree], rfl, rfl, by simp [cxFlagTree], rfl, rfl, rfl, rfl⟩

/-- C7 (amended): the flag dict is exactly the annotated preorder
traversal filtered through `flagOfPair` — each node declaring a truthy
(non-empty) id contributes `(id, inherited visibility AND its own
generation_enabled)`, later bindings overwriting earlier ones — and its
key set holds exactly the non-empty generation ids declared anywhere, so
"declared but disabled" stays distinguishable from "never declared"
except for the empty-string id. -/
theorem C7_flags (t : TemplateDefinition) (gid : String) :
    t.generation_flags = t.allNodesV.filterMap flagOfPair ∧
    (gid ∈ dictKeys t.generation_flags ↔
      gid ≠ "" ∧ ∃ n ∈ t.allNodes, n.generation_id = some gid) := by
  have heq : t.generation_flags = t.allNodesV.filterMap flagOfPair := by
    rw [TemplateDefinition.generation_flags, flagsList_eq, TemplateDefinition.allNodesV]
  refine ⟨heq, ?_⟩
  rw [heq, dictKeys]
  constructor
  · intro hk
    rcases List.mem_map.mp hk with ⟨p, hp, hfst⟩
    rcases List.mem_filterMap.mp hp with ⟨q, hq, hfq⟩
    rcases flagOfPair_some hfq with ⟨hgid, hne, _⟩
    refine ⟨hfst ▸ hne, q.1, ?_, hfst ▸ hgid⟩
    rw [TemplateDefinition.allNodes, ← subnodesVList_fst t.blocks true]
    exact List.mem_map.mpr ⟨q, hq, rfl⟩
  · rintro ⟨hne, n, hn, hgid⟩
    rw [TemplateDefinition.allNodes, ← subnodesVList_fst t.blocks true] at hn
    rcases List.mem_map.mp hn with ⟨q, hq, hqn⟩
    refine List.mem_map.mpr ⟨(gid, q.2 && q.1.generation_enabled), ?_, rfl⟩
    refine List.mem_filterMap.mpr ⟨q, hq, ?_⟩
    unfold flagOfPair
    rw [hqn, hgid]
    simp [hne]

/-- A contributed pair yields an enabled element exactly when it yields a
`true` flag binding. -/
theorem enabledOfPair_iff_flag {q : TemplateNode × Bool} {gid : String} :
    enabledOfPair q = some gid ↔ flagOfPair q = some (gid, true) := by
  constructor
  · intro h
    rcases enabledOfPair_some h with ⟨hgid, hne, hq2, hgen⟩
    unfold flagOfPair
    rw [hgid]
    simp [hne, hq2, hgen]
  · intro h
    rcases flagOfPair_some h with ⟨hgid, hne, hval⟩
    simp only at hgid hne hval
    unfold enabledOfPair
    rw [hgid]
    have h2 : q.2 = true ∧ q.1.generation_enabled = true := by
      rw [← Bool.and_eq_true]
      exact hval.symm
    simp [hne, h2.1, h2.2]

/-- A list of length at most one containing `x` is `[x]`. -/
theorem eq_singleton_of_length_le_one {α : Type} {l : List α} {x : α}
    (hx : x ∈ l) (hl : l.length ≤ 1) : l = [x] := by
  cases l with
  | nil => simp at hx
  | cons a rest =>
    cases rest with
    | nil => simp at hx; rw [hx]
    | cons b t => simp at hl

/-- C9, counterexample to the claim as stated: with `"y"` declared first
enabled (`cxDupA`) and then disabled (`cxDupB`), the set union
`enabled_generations()` contains `"y"` while `generation_flags()` maps
`"y"` to `false` (last declaration wins) — the two views disagree. -/
theorem C9_cex :
    "y" ∈ cxFlagTree.enabled_generations ∧
    dictGet cxFlagTree.generation_flags "y" = some false := by
  constructor
  · simp [cxFlagTree, cxEmptyGid, cxDupA, cxDupB, TemplateDefinition.enabled_generations,
      enabledList, TemplateNode.enabled_generations]
  · rfl

/-- C9 (amended): `enabled_generations()` contains an id exactly when
*some* binding `(id, true)` was emitted into `generation_flags()`; this
coincides with the dict lookup being `true` whenever the id is declared
by at most one node (at most one binding), but can disagree with it when
the same id is declared several times, since the set unions while the
dict keeps the last binding. -/
theorem C9_consistency (t : TemplateDefinition) (gid : String) :
    (gid ∈ t.enabled_generations ↔ (gid, true) ∈ t.generation_flags) ∧
    ((t.generation_flags.filter (fun p => p.1 = gid)).length ≤ 1 →
      (dictGet t.generation_flags gid = some true ↔ gid ∈ t.enabled_generations)) := by
  have h1 : gid ∈ t.enabled_generations ↔ (gid, true) ∈ t.generation_flags := by
    rw [TemplateDefinition.enabled_generations, enabledList_eq,
      TemplateDefinition.generation_flags, flagsList_eq]
    constructor
    · intro h
      rcases List.mem_filterMap.mp h with ⟨q, hq, hfq⟩
      exact List.mem_filterMap.mpr ⟨q, hq, enabledOfPair_iff_flag.mp hfq⟩
    · intro h
      rcases List.mem_filterMap.mp h with ⟨q, hq, hfq⟩
      exact List.mem_filterMap.mpr ⟨q, hq, enabledOfPair_iff_flag.mpr hfq⟩
  refine ⟨h1, ?_⟩
  intro hlen
  constructor
  · intro h
    exact h1.mpr (dictGet_mem h)
  · intro h
    have hm := h1.mp h
    have hmf : (gid, true) ∈ t.generation_flags.filter (fun p => p.1 = gid) :=
      List.mem_filter.mpr ⟨hm, by simp⟩
    have hsingle := eq_singleton_of_length_le_one hmf hlen
    unfold dictGet
    rw [hsingle]
    rfl

/-- C8: for a node with `data_source = "openapi"` at any depth, the
resolved context value is the auxiliary context in its entirety —
whatever the current context and whatever its declared `path`, which is
never consulted (replacing it changes nothing) — and when the auxiliary
context is `None` the node renders absent. -/
theorem C8_auxiliary (n : TemplateNode) (root aux ctx : Value) (pa : List String)
    (h : n.data_source = "openapi") :
    (n.setPath pa).resolveContext ctx aux = aux ∧
    n.resolveContext ctx aux = aux ∧
    n.render root Value.null ctx = none := by
  match n with
  | .mk i lab pa0 ty vis lim ds gid gen cs =>
    simp only [TemplateNode.data_source] at h
    subst h
    refine ⟨?_, ?_, ?_⟩
    · simp [TemplateNode.setPath, TemplateNode.resolveContext, resolveContextCore,
        TemplateNode.data_source, TemplateNode.path]
    · simp [TemplateNode.resolveContext, resolveContextCore, TemplateNode.data_source,
        TemplateNode.path]
    · cases vis <;> simp [TemplateNode.render, resolveContextCore, Value.isNull]

/-- Concrete auxiliary-sourced node (mirroring the default template's
`openapi` block, made visible so absence comes from the missing
auxiliary data alone). -/
def wOpenapi : TemplateNode :=
  .mk "openapi" "OpenAPI schema" ["openapi"] "openapi" true none "openapi" none true []

/-- C8, witness: with a present auxiliary snapshot the node resolves to it
even under a replaced path and an unrelated context; with `None` it
renders absent. -/
theorem C8_wit :
    wOpenapi.data_source = "openapi" ∧
    (wOpenapi.setPath ["other"]).resolveContext (Value.map [("a", Value.int 1)])
        (Value.str "aux") = Value.str "aux" ∧
    wOpenapi.render (Value.map []) Value.null Value.null = none :=
  ⟨rfl,
   (C8_auxiliary wOpenapi (Value.map []) (Value.str "aux")
      (Value.map [("a", Value.int 1)]) ["other"] rfl).1,
   (C8_auxiliary wOpenapi (Value.map []) (Value.str "aux") Value.null ["other"] rfl).2.2⟩

/-- C10: a leaf node (no children) renders absent exactly when it is
invisible or its resolved context value is `None`; otherwise it returns
a node carrying the resolved value itself — falsy values such as
`False`, `0`, `""`, `[]` included — with `limit` truncation applied when
the value is a list. -/
theorem C10_leaf (n : TemplateNode) (root aux ctx : Value)
    (hleaf : n.children = []) :
    (n.render root aux ctx = none ↔
      (n.visible = false ∨
        (n.resolveContext (if ctx.isNull then root else ctx) aux).isNull = true)) ∧
    (n.visible = true →
      (n.resolveContext (if ctx.isNull then root else ctx) aux).isNull = false →
      n.render root aux ctx
        = some ⟨n.id, n.label, n.type,
            match n.resolveContext (if ctx.isNull then root else ctx) aux with
            | Value.list l => Value.list (limitItems n.limit l)
            | v => v⟩) := by
  match n with
  | .mk i lab pa ty vis lim ds gid gen cs =>
    simp only [TemplateNode.children] at hleaf
    subst hleaf
    cases vis with
    | false =>
      constructor
      · simp [TemplateNode.render, TemplateNode.visible]
      · intro hv
        simp [TemplateNode.visible] at hv
    | true =>
      cases hres : (resolveContextCore ds pa (if ctx.isNull then root else ctx) aux).isNull with
      | true =>
        constructor
        · simp [TemplateNode.render, TemplateNode.visible, TemplateNode.resolveContext,
            TemplateNode.data_source, TemplateNode.path, hres]
        · intro _ hnull
          rw [TemplateNode.resolveContext, TemplateNode.data_source, TemplateNode.path] at hnull
          rw [hres] at hnull
          cases hnull
      | false =>
        constructor
        · simp [TemplateNode.render, TemplateNode.visible, TemplateNode.resolveContext,
            TemplateNode.data_source, TemplateNode.path, hres]
        · intro _ _
          simp only [TemplateNode.render, TemplateNode.resolveContext,
            TemplateNode.data_source, TemplateNode.path, TemplateNode.id,
            TemplateNode.label, TemplateNode.type, TemplateNode.limit, hres, if_true]
          simp [hres]

/-- Concrete visible leaf whose resolved value is the falsy `False`. -/
def wLeaf : TemplateNode :=
  .mk "f" "Flag" ["k"] "field" true none "data" none true []

/-- C10, witness: the leaf over `{"k": False}` renders a node carrying
`False` rather than being dropped. -/
theorem C10_wit :
    wLeaf.children = [] ∧
    wLeaf.render (Value.map [("k", Value.bool false)]) Value.null Value.null
      = some ⟨"f", "Flag", "field", Value.bool false⟩ := by
  refine ⟨rfl, ?_⟩
  have h := (C10_leaf wLeaf (Value.map [("k", Value.bool false)]) Value.null Value.null
    rfl).2 rfl rfl
  simpa [wLeaf, TemplateNode.resolveContext, resolveContextCore, walkPath, mapGet,
    mapLookup, TemplateNode.id, TemplateNode.label, TemplateNode.type,
    TemplateNode.data_source, TemplateNode.path, Value.isNull] using h

/-- When every child renders absent against the given context, the child
loop contributes no bindings. -/
theorem renderedPairs_nil (cs : List TemplateNode) (root aux ctx : Value)
    (h : ∀ c ∈ cs, c.render root aux ctx = none) :
    renderedPairs cs root aux ctx = [] := by
  induction cs with
  | nil => rw [renderedPairs]
  | cons c rest ih =>
    rw [renderedPairs, h c (by simp)]
    exact ih (fun c2 hc2 => h c2 (by simp [hc2]))

/-- When every element of the given list has all children rendering absent
against it, the per-element loop of the list branch collects nothing. -/
theorem renderListEntries_nil_of_elems (cs : List TemplateNode) (root aux : Value)
    (es : List Value)
    (h : ∀ e ∈ es, e.isMap = true → ∀ c ∈ cs, c.render root aux e = none) :
    renderListEntries cs root aux es = [] := by
  induction es with
  | nil => rw [renderListEntries]
  | cons e rest ih =>
    have ihr := ih (fun e2 he2 hm c hc => h e2 (by simp [he2]) hm c hc)
    cases e with
    | map m =>
      rw [renderListEntries]
      rw [renderedPairs_nil cs root aux (Value.map m) (h (Value.map m) (by simp) rfl)]
      simpa [buildDict] using ihr
    | null =>
      rw [renderListEntries]
      exact ihr
      exact fun entries he => Value.noConfusion he
    | bool b =>
      rw [renderListEntries]
      exact ihr
      exact fun entries he => Value.noConfusion he
    | int k =>
      rw [renderListEntries]
      exact ihr
      exact fun entries he => Value.noConfusion he
    | str s =>
      rw [renderListEntries]
      exact ihr
      exact fun entries he => Value.noConfusion he
    | list l =>
      rw [renderListEntries]
      exact ihr
      exact fun entries he => Value.noConfusion he

/-- C6: emptiness propagates against the actual data.  For a node with
children: when the resolved context value is not a list and every child
renders absent against that very value, the node renders absent; when
the resolved value is a list and every element of the truncated list
yields zero non-absent children, the node renders absent.  At the root,
a definition all of whose blocks render absent renders the empty output,
and in general the top-level render is exactly the blocks' non-absent
results in declared order (the absence propagates recursively, since
each level's absence feeds the next level's hypothesis). -/
theorem C6_emptiness (t : TemplateDefinition) (n : TemplateNode)
    (root aux ctx pageData openapiData : Value) :
    (∀ v, n.children ≠ [] →
      n.resolveContext (if ctx.isNull then root else ctx) aux = v →
      v.isList = false →
      (∀ c ∈ n.children, c.render root aux v = none) →
      n.render root aux ctx = none) ∧
    (∀ l, n.children ≠ [] →
      n.resolveContext (if ctx.isNull then root else ctx) aux = Value.list l →
      (∀ e ∈ limitItems n.limit l, e.isMap = true →
        ∀ c ∈ n.children, c.render root aux e = none) →
      n.render root aux ctx = none) ∧
    ((∀ b ∈ t.blocks, b.render pageData openapiData pageData = none) →
      t.render pageData openapiData = []) ∧
    t.render pageData openapiData
      = t.blocks.filterMap
          (fun b => (b.render pageData openapiData pageData).map RenderedNode.to_dict) := by
  refine ⟨?_, ?_, ?_, rfl⟩
  · intro v hch hres hvl hall
    match n, hch with
    | .mk i lab pa ty vis lim ds gid gen (c0 :: cs0), _ =>
      simp only [TemplateNode.resolveContext, TemplateNode.data_source,
        TemplateNode.path] at hres
      simp only [TemplateNode.children] at hall
      cases vis with
      | false => simp [TemplateNode.render]
      | true =>
        cases v with
        | list l => simp [Value.isList] at hvl
        | null =>
          rw [TemplateNode.render.eq_def]
          simp only []
          rw [hres]
          simp [Value.isNull]
        | bool b =>
          rw [TemplateNode.render.eq_def]
          simp only []
          rw [hres]
          simp [Value.isNull, buildDict,
            renderedPairs_nil (c0 :: cs0) root aux (Value.bool b) hall]
        | int k =>
          rw [TemplateNode.render.eq_def]
          simp only []
          rw [hres]
          simp [Value.isNull, buildDict,
            renderedPairs_nil (c0 :: cs0) root aux (Value.int k) hall]
        | str s =>
          rw [TemplateNode.render.eq_def]
          simp only []
          rw [hres]
          simp [Value.isNull, buildDict,
            renderedPairs_nil (c0 :: cs0) root aux (Value.str s) hall]
        | map m =>
          rw [TemplateNode.render.eq_def]
          simp only []
          rw [hres]
          simp [Value.isNull, buildDict,
            renderedPairs_nil (c0 :: cs0) root aux (Value.map m) hall]
  · intro l hch hres helems
    match n, hch with
    | .mk i lab pa ty vis lim ds gid gen (c0 :: cs0), _ =>
      simp only [TemplateNode.resolveContext, TemplateNode.data_source,
        TemplateNode.path] at hres
      simp only [TemplateNode.children, TemplateNode.limit] at helems
      cases vis with
      | false => simp [TemplateNode.render]
      | true =>
        rw [TemplateNode.render.eq_def]
        simp only []
        rw [hres]
        simp [Value.isNull,
          renderListEntries_nil_of_elems (c0 :: cs0) root aux (limitItems lim l) helems]
  · intro hb
    rw [TemplateDefinition.render, List.filterMap_eq_nil_iff]
    intro b hbm
    rw [hb b hbm]
    rfl

/-- GROUP with two visible FIELD children whose paths (`a`, `b`) do not
resolve on the record below: the spec's Scenario B with both fields
missing. -/
def wGroupB : TemplateNode :=
  .mk "g" "Group" ["g"] "group" true none "data" none true
    [.mk "c1" "A" ["a"] "field" true none "data" none true [],
     .mk "c2" "B" ["b"] "field" true none "data" none true []]

/-- Record whose `g` sub-map has neither `a` nor `b`. -/
def wDataB : Value := Value.map [("g", Value.map [("x", Value.int 1)])]

/-- LIST node with a limit whose child path `v` matches no element. -/
def wListB : TemplateNode :=
  .mk "L1" "L1" ["items"] "array" true (some 3) "data" none true
    [.mk "c" "C" ["v"] "field" true none "data" none true []]

/-- Record whose `items` list holds maps without the child's key. -/
def wListDataB : Value :=
  Value.map [("items", Value.list [Value.map [("w", Value.int 1)], Value.map []])]

/-- Single-block tree over `wGroupB`. -/
def wTreeB : TemplateDefinition := ⟨"b", [wGroupB]⟩

/-- C6, witness: on actual data, both of the group's visible children fail
to resolve against the resolved sub-map, so the group renders absent;
every element of the list node's truncated list yields zero non-absent
children, so the list node renders absent; and the root render of the
tree whose only block is that group is empty. -/
theorem C6_wit :
    wGroupB.render wDataB Value.null Value.null = none ∧
    wListB.render wListDataB Value.null Value.null = none ∧
    wTreeB.render wDataB Value.null = [] := by
  have hcabs : ∀ c ∈ wGroupB.children,
      c.render wDataB Value.null (Value.map [("x", Value.int 1)]) = none := by
    intro c hc
    simp only [wGroupB, TemplateNode.children, List.mem_cons,
      List.not_mem_nil, or_false] at hc
    rcases hc with rfl | rfl
    · simp [TemplateNode.render, resolveContextCore, walkPath, mapGet, mapLookup,
        Value.isNull]
    · simp [TemplateNode.render, resolveContextCore, walkPath, mapGet, mapLookup,
        Value.isNull]
  have hg := C6_emptiness wTreeB wGroupB wDataB Value.null Value.null wDataB Value.null
  have hg2 := C6_emptiness wTreeB wGroupB wDataB Value.null wDataB wDataB Value.null
  have hl := C6_emptiness wTreeB wListB wListDataB Value.null Value.null wDataB Value.null
  have h1 : wGroupB.render wDataB Value.null Value.null = none :=
    hg.1 (Value.map [("x", Value.int 1)])
      (by simp [wGroupB, TemplateNode.children]) rfl rfl hcabs
  have h1b : wGroupB.render wDataB Value.null wDataB = none :=
    hg2.1 (Value.map [("x", Value.int 1)])
      (by simp [wGroupB, TemplateNode.children]) rfl rfl hcabs
  have h2 : wListB.render wListDataB Value.null Value.null = none := by
    refine hl.2.1 [Value.map [("w", Value.int 1)], Value.map []]
      (by simp [wListB, TemplateNode.children]) rfl ?_
    show ∀ e ∈ [Value.map [("w", Value.int 1)], Value.map []], e.isMap = true →
        ∀ c ∈ wListB.children, c.render wListDataB Value.null e = none
    intro e he _ c hc
    simp only [wListB, TemplateNode.children, List.mem_cons, List.not_mem_nil,
      or_false] at he hc
    subst hc
    rcases he with rfl | rfl
    · simp [TemplateNode.render, resolveContextCore, walkPath, mapGet, mapLookup,
        Value.isNull]
    · simp [TemplateNode.render, resolveContextCore, walkPath, mapGet, mapLookup,
        Value.isNull]
  refine ⟨h1, h2, ?_⟩
  apply hg.2.2.1
  intro b hbm
  simp only [wTreeB, List.mem_singleton] at hbm
  subst hbm
  exact h1b

/-- Concrete leaf over an empty list for the claim-C5 counterexample. -/
def cxEmptyLeaf : TemplateNode :=
  .mk "el" "Items" ["k"] "array" true (some 2) "data" none true []

/-- C5, counterexample to the claim as stated: a visible leaf node whose
resolved value is the empty list (still empty after `limit` truncation)
does not contribute absent — `render` returns a node carrying `[]`. -/
theorem C5_cex :
    cxEmptyLeaf.visible = true ∧ cxEmptyLeaf.limit = some 2 ∧
    cxEmptyLeaf.resolveContext (Value.map [("k", Value.list [])]) Value.null
      = Value.list [] ∧
    cxEmptyLeaf.render (Value.map [("k", Value.list [])]) Value.null Value.null
      = some ⟨"el", "Items", "array", Value.list []⟩ := by
  refine ⟨rfl, rfl, rfl, ?_⟩
  simp [cxEmptyLeaf, TemplateNode.render, resolveContextCore, walkPath, mapGet, mapLookup,
    Value.isNull, limitItems, pyTake]

/-- C5 (amended): resolution misses are silent omissions — the embedding is
total, so no failure path exists, and (a) a node whose resolved context
value is `None` renders absent; (b) a path walk whose current target is
not a mapping yields `None`; (c) so does a missing key at any segment;
(d) a node *with children* whose truncated list is empty renders absent.
But (e) a visible *leaf* over a list value — the empty list included —
returns a node carrying the truncated list, not absent: the
empty-after-truncation case of the claim holds only for nodes with
children. -/
theorem C5_resolution_miss (n : TemplateNode) (root aux ctx v : Value)
    (m : List (String × Value)) (k : String) (ks : List String) (l : List Value) :
    (n.resolveContext (if ctx.isNull then root else ctx) aux = Value.null →
      n.render root aux ctx = none) ∧
    (v.isMap = false → walkPath v (k :: ks) = Value.null) ∧
    (mapLookup m k = none → walkPath (Value.map m) (k :: ks) = Value.null) ∧
    (n.children ≠ [] →
      n.resolveContext (if ctx.isNull then root else ctx) aux = Value.list l →
      limitItems n.limit l = [] →
      n.render root aux ctx = none) ∧
    (n.children = [] → n.visible = true →
      n.resolveContext (if ctx.isNull then root else ctx) aux = Value.list l →
      n.render root aux ctx = some ⟨n.id, n.label, n.type,
        Value.list (limitItems n.limit l)⟩) := by
  match n with
  | .mk i lab pa ty vis lim ds gid gen cs =>
    simp only [TemplateNode.resolveContext, TemplateNode.data_source, TemplateNode.path,
      TemplateNode.children, TemplateNode.visible, TemplateNode.id, TemplateNode.label,
      TemplateNode.type, TemplateNode.limit]
    refine ⟨?_, ?_, ?_, ?_, ?_⟩
    · intro hres
      cases vis with
      | false => simp [TemplateNode.render]
      | true =>
        rw [TemplateNode.render.eq_def]
        simp only []
        rw [hres]
        simp [Value.isNull]
    · intro hv
      cases v with
      | map m2 => simp [Value.isMap] at hv
      | null => simp [walkPath]
      | bool b => simp [walkPath]
      | int n2 => simp [walkPath]
      | str s => simp [walkPath]
      | list l2 => simp [walkPath]
    · intro hmiss
      rw [walkPath]
      simp only [mapGet, hmiss, Option.getD_none]
      cases ks with
      | nil => rw [walkPath]
      | cons k2 ks2 => simp [walkPath]
    · intro hch hres hempty
      cases vis with
      | false => simp [TemplateNode.render]
      | true =>
        match cs, hch with
        | c0 :: cs0, _ =>
          rw [TemplateNode.render.eq_def]
          simp only []
          rw [hres]
          simp [Value.isNull, hempty, renderListEntries]
    · intro hch hvis hres
      subst hch
      subst hvis
      rw [TemplateNode.render.eq_def]
      simp only []
      rw [hres]
      simp [Value.isNull]

/-- Node with a child over a path that resolves to an empty list. -/
def wEmptyListNode : TemplateNode :=
  .mk "L0" "L" ["k"] "array" true (some 2) "data" none true
    [.mk "c" "C" ["v"] "field" true none "data" none true []]

/-- C5, witness: over a record missing the key `"k"`, the leaf from the
counterexample renders absent silently; a non-map intermediate and a
missing key yield `None` from the walk; and a node with children whose
truncated list is empty renders absent. -/
theorem C5_wit :
    cxEmptyLeaf.resolveContext (Value.map []) Value.null = Value.null ∧
    cxEmptyLeaf.render (Value.map []) Value.null Value.null = none ∧
    walkPath (Value.str "scalar") ["k"] = Value.null ∧
    walkPath (Value.map []) ["k"] = Value.null ∧
    wEmptyListNode.render (Value.map [("k", Value.list [])]) Value.null Value.null
      = none := by
  have h1 := C5_resolution_miss cxEmptyLeaf (Value.map []) Value.null Value.null
    (Value.str "scalar") [] "k" [] []
  have h2 := C5_resolution_miss wEmptyListNode (Value.map [("k", Value.list [])])
    Value.null Value.null (Value.str "scalar") [] "k" [] []
  refine ⟨rfl, h1.1 rfl, h1.2.1 rfl, h1.2.2.1 rfl, ?_⟩
  exact h2.2.2.2.1 (by simp [wEmptyListNode, TemplateNode.children]) rfl rfl

/-- A non-mapping element is skipped by the per-element loop. -/
theorem renderListEntries_cons_skip (cs : List TemplateNode) (root aux e : Value)
    (es : List Value) (he : e.isMap = false) :
    renderListEntries cs root aux (e :: es) = renderListEntries cs root aux es := by
  cases e with
  | map m => simp [Value.isMap] at he
  | null =>
    rw [renderListEntries]
    exact fun entries h2 => Value.noConfusion h2
  | bool b =>
    rw [renderListEntries]
    exact fun entries h2 => Value.noConfusion h2
  | int k =>
    rw [renderListEntries]
    exact fun entries h2 => Value.noConfusion h2
  | str s =>
    rw [renderListEntries]
    exact fun entries h2 => Value.noConfusion h2
  | list l =>
    rw [renderListEntries]
    exact fun entries h2 => Value.noConfusion h2

/-- A mapping element contributes its child map when that map is
non-empty. -/
theorem renderListEntries_cons_map (cs : List TemplateNode) (root aux : Value)
    (m : List (String × Value)) (es : List Value) :
    renderListEntries cs root aux (Value.map m :: es)
      = (if (buildDict (renderedPairs cs root aux (Value.map m)) []).isEmpty
         then renderListEntries cs root aux es
         else buildDict (renderedPairs cs root aux (Value.map m)) []
            :: renderListEntries cs root aux es) := by
  rw [renderListEntries]

/-- The per-element loop distributes over list concatenation. -/
theorem renderListEntries_append (cs : List TemplateNode) (root aux : Value)
    (l1 l2 : List Value) :
    renderListEntries cs root aux (l1 ++ l2)
      = renderListEntries cs root aux l1 ++ renderListEntries cs root aux l2 := by
  induction l1 with
  | nil => rw [renderListEntries]; rfl
  | cons e rest ih =>
    cases e with
    | map m =>
      rw [List.cons_append, renderListEntries_cons_map, renderListEntries_cons_map, ih]
      by_cases hm : (buildDict (renderedPairs cs root aux (Value.map m)) []).isEmpty
      · simp [hm]
      · simp [hm]
    | null =>
      rw [List.cons_append, renderListEntries_cons_skip cs root aux Value.null (rest ++ l2) rfl,
        renderListEntries_cons_skip cs root aux Value.null rest rfl, ih]
    | bool b =>
      rw [List.cons_append,
        renderListEntries_cons_skip cs root aux (Value.bool b) (rest ++ l2) rfl,
        renderListEntries_cons_skip cs root aux (Value.bool b) rest rfl, ih]
    | int k =>
      rw [List.cons_append,
        renderListEntries_cons_skip cs root aux (Value.int k) (rest ++ l2) rfl,
        renderListEntries_cons_skip cs root aux (Value.int k) rest rfl, ih]
    | str s =>
      rw [List.cons_append,
        renderListEntries_cons_skip cs root aux (Value.str s) (rest ++ l2) rfl,
        renderListEntries_cons_skip cs root aux (Value.str s) rest rfl, ih]
    | list l =>
      rw [List.cons_append,
        renderListEntries_cons_skip cs root aux (Value.list l) (rest ++ l2) rfl,
        renderListEntries_cons_skip cs root aux (Value.list l) rest rfl, ih]

/-- The per-element loop never returns more elements than it was given. -/
theorem renderListEntries_length (cs : List TemplateNode) (root aux : Value)
    (es : List Value) :
    (renderListEntries cs root aux es).length ≤ es.length := by
  induction es with
  | nil => rw [renderListEntries]; simp
  | cons e rest ih =>
    cases e with
    | map m =>
      rw [renderListEntries_cons_map]
      by_cases hm : (buildDict (renderedPairs cs root aux (Value.map m)) []).isEmpty = true
      · rw [if_pos hm]
        simp only [List.length_cons]
        omega
      · rw [if_neg hm]
        simp only [List.length_cons]
        omega
    | null =>
      rw [renderListEntries_cons_skip cs root aux Value.null rest rfl]
      simp only [List.length_cons]
      omega
    | bool b =>
      rw [renderListEntries_cons_skip cs root aux (Value.bool b) rest rfl]
      simp only [List.length_cons]
      omega
    | int k =>
      rw [renderListEntries_cons_skip cs root aux (Value.int k) rest rfl]
      simp only [List.length_cons]
      omega
    | str s =>
      rw [renderListEntries_cons_skip cs root aux (Value.str s) rest rfl]
      simp only [List.length_cons]
      omega
    | list l =>
      rw [renderListEntries_cons_skip cs root aux (Value.list l) rest rfl]
      simp only [List.length_cons]
      omega

/-- C2 (amended): for a node with children over a list value with
`limit = N ≥ 0`, truncation is applied to the *raw resolved list before*
child-rendering filters the elements: the output is the list of
qualifying child maps among the first N raw elements, in original order
(not the first N qualifying ones); consequently the output length is at
most N and the output is a prefix of the qualifying child maps of the
whole untruncated list. -/
theorem C2_truncation (n : TemplateNode) (root aux ctx : Value) (l : List Value) (k : Int)
    (hch : n.children ≠ []) (hvis : n.visible = true)
    (hres : n.resolveContext (if ctx.isNull then root else ctx) aux = Value.list l)
    (hlim : n.limit = some k) (hk : 0 ≤ k) :
    (n.render root aux ctx
      = (if (renderListEntries n.children root aux (l.take k.toNat)).isEmpty then none
         else some ⟨n.id, n.label, n.type,
           Value.list ((renderListEntries n.children root aux (l.take k.toNat)).map
             Value.map)⟩)) ∧
    (renderListEntries n.children root aux (l.take k.toNat)).length ≤ k.toNat ∧
    (∃ rest, renderListEntries n.children root aux (l.take k.toNat) ++ rest
        = renderListEntries n.children root aux l) := by
  match n, hch with
  | .mk i lab pa ty vis lim ds gid gen (c0 :: cs0), _ =>
    simp only [TemplateNode.resolveContext, TemplateNode.data_source, TemplateNode.path,
      TemplateNode.children, TemplateNode.visible, TemplateNode.limit, TemplateNode.id,
      TemplateNode.label, TemplateNode.type] at hres hlim hvis ⊢
    subst hvis
    subst hlim
    have hlt : limitItems (some k) l = l.take k.toNat := by
      simp [limitItems, pyTake, hk]
    refine ⟨?_, ?_, ?_⟩
    · rw [TemplateNode.render.eq_def]
      simp only []
      rw [hres]
      simp only [Value.isNull]
      rw [hlt]
      simp
    · calc (renderListEntries (c0 :: cs0) root aux (l.take k.toNat)).length
          ≤ (l.take k.toNat).length := renderListEntries_length _ _ _ _
        _ ≤ k.toNat := by simp [List.length_take]
    · refine ⟨renderListEntries (c0 :: cs0) root aux (l.drop k.toNat), ?_⟩
      rw [← renderListEntries_append, List.take_append_drop]

/-- Leaf child used in the claim-C2 scenario. -/
def cxChild : TemplateNode := .mk "C" "V" ["v"] "field" true none "data" none true []

/-- LIST node with `limit = 2` over path `items`. -/
def cxListNode : TemplateNode :=
  .mk "L" "List" ["items"] "array" true (some 2) "data" none true [cxChild]

/-- A qualifying list element (the child's path resolves). -/
def cxQual : Value := Value.map [("v", Value.str "x")]

/-- Data list of five maps of which four qualify; the non-qualifying one
comes first. -/
def cxListData : Value :=
  Value.map [("items", Value.list [Value.map [], cxQual, cxQual, cxQual, cxQual])]

/-- C2, counterexample to the claim as stated: five maps, four qualify,
`limit = 2` — the claim demands exactly 2 output entries, but because
truncation happens *before* filtering the truncated window `[{}, q1]`
keeps only one qualifying element and the output list has exactly 1
entry. -/
theorem C2_cex :
    cxListNode.limit = some 2 ∧
    (renderListEntries [cxChild] cxListData Value.null
        [Value.map [], cxQual, cxQual, cxQual, cxQual]).length = 4 ∧
    cxListNode.render cxListData Value.null cxListData
      = some ⟨"L", "List", "array", Value.list [Value.map [("V", Value.str "x")]]⟩ ∧
    ([Value.map [("V", Value.str "x")]].length ≠ 2) := by
  refine ⟨rfl, ?_, ?_, by simp⟩
  · simp [cxChild, cxQual, cxListData, renderListEntries, renderedPairs, buildDict,
      dictInsert, TemplateNode.render, resolveContextCore, walkPath, mapGet, mapLookup,
      Value.isNull, Value.isMap]
  · simp [cxListNode, cxChild, cxQual, cxListData, TemplateNode.render, renderListEntries,
      renderedPairs, buildDict, dictInsert, resolveContextCore, walkPath, mapGet, mapLookup,
      limitItems, pyTake, Value.isNull, Value.isMap]

/-- C2, witness: the amended statement instantiated on the scenario tree:
the output of the truncated window has at most 2 entries and is a prefix
of the 4 qualifying child maps of the full list. -/
theorem C2_wit :
    (renderListEntries cxListNode.children cxListData Value.null
        ([Value.map [], cxQual, cxQual, cxQual, cxQual].take (2 : Int).toNat)).length
      ≤ (2 : Int).toNat ∧
    (∃ rest, renderListEntries cxListNode.children cxListData Value.null
          ([Value.map [], cxQual, cxQual, cxQual, cxQual].take (2 : Int).toNat) ++ rest
        = renderListEntries cxListNode.children cxListData Value.null
            [Value.map [], cxQual, cxQual, cxQual, cxQual]) :=
  (C2_truncation cxListNode cxListData Value.null cxListData
    [Value.map [], cxQual, cxQual, cxQual, cxQual] 2
    (by simp [cxListNode, TemplateNode.children]) rfl rfl rfl (by norm_num)).2

/-- Round trip of a serialized string path back through the `path`
extraction. -/
theorem pathOfValue_map_str (pa : List String) :
    pathOfValue (Value.list (pa.map Value.str)) = pa := by
  induction pa with
  | nil => rfl
  | cons p ps ih =>
    rw [pathOfValue] at ih ⊢
    simpa using ih

/-- Cons form of `pathOfValue_map_str`, matching simp-normalized goals. -/
theorem pathOfValue_str_cons (p : String) (ps : List String) :
    pathOfValue (Value.list (Value.str p :: List.map Value.str ps)) = p :: ps := by
  have h := pathOfValue_map_str (p :: ps)
  simpa using h

mutual
/-- Deserializing a serialized well-formed node restores it exactly. -/
theorem from_to_dict (x : TemplateNode) (hwf : wfNode x = true) :
    TemplateNode.from_dict (TemplateNode.to_dict x) = x := by
  match x with
  | .mk i lab pa ty vis lim ds gid gen cs =>
    rw [wfNode] at hwf
    simp only [Bool.and_eq_true, bne_iff_ne, ne_eq] at hwf
    obtain ⟨⟨⟨hlab, hds⟩, hgid⟩, hcs⟩ := hwf
    have hchildren := from_to_dictList cs hcs
    simp only [TemplateNode.to_dict]
    rw [TemplateNode.from_dict]
    cases gid with
    | none =>
      cases lim with
      | none =>
        cases pa with
        | nil =>
          simp [mapGet, mapGetD, mapLookup, pyOr, pyTruthy, pyStr, pathOfValue,
            limitOfValue, genIdOfValue, hlab, hds, hchildren]
        | cons p ps =>
          simp [mapGet, mapGetD, mapLookup, pyOr, pyTruthy, pyStr, pathOfValue_str_cons,
            limitOfValue, genIdOfValue, hlab, hds, hchildren]
      | some kk =>
        cases pa with
        | nil =>
          simp [mapGet, mapGetD, mapLookup, pyOr, pyTruthy, pyStr, pathOfValue,
            limitOfValue, genIdOfValue, hlab, hds, hchildren]
        | cons p ps =>
          simp [mapGet, mapGetD, mapLookup, pyOr, pyTruthy, pyStr, pathOfValue_str_cons,
            limitOfValue, genIdOfValue, hlab, hds, hchildren]
    | some g =>
      have hg : ¬(g = "") := by
        intro he
        exact hgid (by rw [he])
      cases lim with
      | none =>
        cases pa with
        | nil =>
          simp [mapGet, mapGetD, mapLookup, pyOr, pyTruthy, pyStr, pathOfValue,
            limitOfValue, genIdOfValue, hlab, hds, hg, hchildren]
        | cons p ps =>
          simp [mapGet, mapGetD, mapLookup, pyOr, pyTruthy, pyStr, pathOfValue_str_cons,
            limitOfValue, genIdOfValue, hlab, hds, hg, hchildren]
      | some kk =>
        cases pa with
        | nil =>
          simp [mapGet, mapGetD, mapLookup, pyOr, pyTruthy, pyStr, pathOfValue,
            limitOfValue, genIdOfValue, hlab, hds, hg, hchildren]
        | cons p ps =>
          simp [mapGet, mapGetD, mapLookup, pyOr, pyTruthy, pyStr, pathOfValue_str_cons,
            limitOfValue, genIdOfValue, hlab, hds, hg, hchildren]
termination_by (sizeOf x, 0)

/-- List version of `from_to_dict`. -/
theorem from_to_dictList (xs : List TemplateNode) (hwf : wfNodeList xs = true) :
    fromDictList (toDictList xs) = xs := by
  match xs with
  | [] => rw [toDictList, fromDictList]
  | c :: rest =>
    rw [wfNodeList] at hwf
    simp only [Bool.and_eq_true] at hwf
    rw [toDictList, fromDictList, from_to_dict c hwf.1, from_to_dictList rest hwf.2]
termination_by (sizeOf xs, 1)
end

/-- Witness extraction for `isStrV`. -/
theorem isStrV_ex {v : Value} (h : isStrV v = true) : ∃ s, v = Value.str s := by
  cases v <;> simp [isStrV] at h ⊢

/-- Witness extraction for `nonemptyStrV`. -/
theorem nonemptyStrV_ex {v : Value} (h : nonemptyStrV v = true) :
    ∃ s, v = Value.str s ∧ s ≠ "" := by
  cases v <;> simp [nonemptyStrV] at h ⊢
  exact h

/-- Witness extraction for `isBoolV`. -/
theorem isBoolV_ex {v : Value} (h : isBoolV v = true) : ∃ b, v = Value.bool b := by
  cases v <;> simp [isBoolV] at h ⊢

/-- Witness extraction for `limitV`. -/
theorem limitV_ex {v : Value} (h : limitV v = true) :
    v = Value.null ∨ ∃ k, v = Value.int k := by
  cases v <;> simp [limitV] at h ⊢

/-- Witness extraction for `gidV`. -/
theorem gidV_ex {v : Value} (h : gidV v = true) :
    v = Value.null ∨ ∃ g, v = Value.str g ∧ g ≠ "" := by
  cases v <;> simp [gidV] at h ⊢
  exact h

/-- Witness extraction for `pathV`. -/
theorem pathV_ex {v : Value} (h : pathV v = true) :
    ∃ pa, v = Value.list pa ∧ pa.all isStrV = true := by
  cases v <;> simp [pathV] at h ⊢
  exact h

/-- Witness extraction for `childrenDocV`. -/
theorem childrenDocV_ex {v : Value} (h : childrenDocV v = true) :
    ∃ cs, v = Value.list cs ∧ canonicalDocList cs = true := by
  cases v <;> rw [childrenDocV] at h
  case list cs => exact ⟨cs, rfl, h⟩
  all_goals cases h

/-- A list of string values is restored by serializing the extracted
string path. -/
theorem pathV_roundtrip (pa : List Value) (h : pa.all isStrV = true) :
    (pathOfValue (Value.list pa)).map Value.str = pa := by
  induction pa with
  | nil => rfl
  | cons v rest ih =>
    simp only [List.all_cons, Bool.and_eq_true] at h
    obtain ⟨s, rfl⟩ := isStrV_ex h.1
    rw [pathOfValue] at ih ⊢
    simpa using ih h.2

/-- Bounded-size version of the canonical-document round trip, by
induction on a size fuel (the recursion through `children` is not
structural once the document has been destructured). -/
theorem to_from_aux (N : Nat) :
    ∀ d, sizeOf d ≤ N → canonicalNodeDoc d = true →
      TemplateNode.to_dict (TemplateNode.from_dict d) = d := by
  induction N with
  | zero =>
    intro d hsz _
    cases d <;> simp at hsz
  | succ N ih =>
    have hlist : ∀ cs : List Value, (∀ c ∈ cs, sizeOf c ≤ N) →
        canonicalDocList cs = true → toDictList (fromDictList cs) = cs := by
      intro cs
      induction cs with
      | nil =>
        intro _ _
        rw [fromDictList, toDictList]
      | cons c rest ihl =>
        intro hb hcl
        rw [canonicalDocList] at hcl
        simp only [Bool.and_eq_true] at hcl
        rw [fromDictList, toDictList, ih c (hb c (by simp)) hcl.1,
          ihl (fun c2 hc2 => hb c2 (by simp [hc2])) hcl.2]
    intro d hsz hd
    match d with
    | .null => exact Bool.noConfusion hd
    | .bool _ => exact Bool.noConfusion hd
    | .int _ => exact Bool.noConfusion hd
    | .str _ => exact Bool.noConfusion hd
    | .list _ => exact Bool.noConfusion hd
    | .map m =>
    cases m with
    | nil => exact Bool.noConfusion hd
    | cons e1 m =>
    cases m with
    | nil => exact Bool.noConfusion hd
    | cons e2 m =>
    cases m with
    | nil => exact Bool.noConfusion hd
    | cons e3 m =>
    cases m with
    | nil => exact Bool.noConfusion hd
    | cons e4 m =>
    cases m with
    | nil => exact Bool.noConfusion hd
    | cons e5 m =>
    cases m with
    | nil => exact Bool.noConfusion hd
    | cons e6 m =>
    cases m with
    | nil => exact Bool.noConfusion hd
    | cons e7 m =>
    cases m with
    | nil => exact Bool.noConfusion hd
    | cons e8 m =>
    cases m with
    | nil => exact Bool.noConfusion hd
    | cons e9 m =>
    cases m with
    | nil => exact Bool.noConfusion hd
    | cons e10 m =>
    cases m with
    | cons e11 m => exact Bool.noConfusion hd
    | nil =>
    obtain ⟨k1, v1⟩ := e1
    obtain ⟨k2, v2⟩ := e2
    obtain ⟨k3, v3⟩ := e3
    obtain ⟨k4, v4⟩ := e4
    obtain ⟨k5, v5⟩ := e5
    obtain ⟨k6, v6⟩ := e6
    obtain ⟨k7, v7⟩ := e7
    obtain ⟨k8, v8⟩ := e8
    obtain ⟨k9, v9⟩ := e9
    obtain ⟨k10, v10⟩ := e10
    rw [canonicalNodeDoc] at hd
    simp only [Bool.and_eq_true, beq_iff_eq] at hd
    obtain ⟨⟨⟨⟨⟨⟨⟨⟨⟨⟨⟨⟨⟨⟨⟨⟨⟨⟨⟨hk1, hv1⟩, hk2⟩, hv2⟩, hk3⟩, hv3⟩, hk4⟩, hv4⟩,
      hk5⟩, hv5⟩, hk6⟩, hv6⟩, hk7⟩, hv7⟩, hk8⟩, hv8⟩, hk9⟩, hv9⟩, hk10⟩, hv10⟩ := hd
    subst hk1; subst hk2; subst hk3; subst hk4; subst hk5
    subst hk6; subst hk7; subst hk8; subst hk9; subst hk10
    obtain ⟨a, rfl⟩ := isStrV_ex hv1
    obtain ⟨lab, rfl, hlab⟩ := nonemptyStrV_ex hv2
    obtain ⟨pa, rfl, hpa⟩ := pathV_ex hv3
    obtain ⟨ty, rfl⟩ := isStrV_ex hv4
    obtain ⟨vis, rfl⟩ := isBoolV_ex hv5
    obtain ⟨ds, rfl, hds⟩ := nonemptyStrV_ex hv7
    obtain ⟨gen, rfl⟩ := isBoolV_ex hv9
    obtain ⟨cs, rfl, hcs⟩ := childrenDocV_ex hv10
    have hbound : ∀ c ∈ cs, sizeOf c ≤ N := by
      intro c hc
      have h1 := List.sizeOf_lt_of_mem hc
      simp at hsz
      omega
    have hchildren := hlist cs hbound hcs
    rw [TemplateNode.from_dict]
    rcases limitV_ex hv6 with rfl | ⟨kk, rfl⟩
    · rcases gidV_ex hv8 with rfl | ⟨g, rfl, hg⟩
      · cases pa with
      | nil =>
        simp [TemplateNode.to_dict, mapGet, mapGetD, mapLookup, pyOr, pyTruthy, pyStr,
          pathOfValue, limitOfValue, genIdOfValue, hlab, hds, hchildren]
      | cons p0 ps0 =>
        simp [TemplateNode.to_dict, mapGet, mapGetD, mapLookup, pyOr, pyTruthy, pyStr,
          limitOfValue, genIdOfValue, hlab, hds, hchildren,
          pathV_roundtrip (p0 :: ps0) hpa]
      · cases pa with
      | nil =>
        simp [TemplateNode.to_dict, mapGet, mapGetD, mapLookup, pyOr, pyTruthy, pyStr,
          pathOfValue, limitOfValue, genIdOfValue, hlab, hds, hchildren, hg]
      | cons p0 ps0 =>
        simp [TemplateNode.to_dict, mapGet, mapGetD, mapLookup, pyOr, pyTruthy, pyStr,
          limitOfValue, genIdOfValue, hlab, hds, hchildren, hg,
          pathV_roundtrip (p0 :: ps0) hpa]
    · rcases gidV_ex hv8 with rfl | ⟨g, rfl, hg⟩
      · cases pa with
      | nil =>
        simp [TemplateNode.to_dict, mapGet, mapGetD, mapLookup, pyOr, pyTruthy, pyStr,
          pathOfValue, limitOfValue, genIdOfValue, hlab, hds, hchildren]
      | cons p0 ps0 =>
        simp [TemplateNode.to_dict, mapGet, mapGetD, mapLookup, pyOr, pyTruthy, pyStr,
          limitOfValue, genIdOfValue, hlab, hds, hchildren,
          pathV_roundtrip (p0 :: ps0) hpa]
      · cases pa with
      | nil =>
        simp [TemplateNode.to_dict, mapGet, mapGetD, mapLookup, pyOr, pyTruthy, pyStr,
          pathOfValue, limitOfValue, genIdOfValue, hlab, hds, hchildren, hg]
      | cons p0 ps0 =>
        simp [TemplateNode.to_dict, mapGet, mapGetD, mapLookup, pyOr, pyTruthy, pyStr,
          limitOfValue, genIdOfValue, hlab, hds, hchildren, hg,
          pathV_roundtrip (p0 :: ps0) hpa]

/-- Serializing the node deserialized from a canonical document restores
the document exactly. -/
theorem to_from_dict (d : Value) (hd : canonicalNodeDoc d = true) :
    TemplateNode.to_dict (TemplateNode.from_dict d) = d :=
  to_from_aux (sizeOf d) d (Nat.le_refl _) hd

/-- List version of `to_from_dict`. -/
theorem to_from_dictList (ds : List Value) (hds : canonicalDocList ds = true) :
    toDictList (fromDictList ds) = ds := by
  induction ds with
  | nil => rw [fromDictList, toDictList]
  | cons d rest ih =>
    rw [canonicalDocList] at hds
    simp only [Bool.and_eq_true] at hds
    rw [fromDictList, toDictList, to_from_dict d hds.1, ih hds.2]

/-- The `limit` field round-trips unconditionally: `None` stays `None`
and an integer stays itself (never coerced to `0`). -/
theorem limit_roundtrip (x : TemplateNode) :
    (TemplateNode.from_dict (TemplateNode.to_dict x)).limit = x.limit := by
  match x with
  | .mk i lab pa ty vis lim ds gid gen cs =>
    simp only [TemplateNode.to_dict]
    rw [TemplateNode.from_dict]
    simp only [TemplateNode.limit]
    cases lim with
    | none => simp [mapGet, mapLookup, limitOfValue]
    | some k => simp [mapGet, mapLookup, limitOfValue]

/-- Deserializing a serialized well-formed definition restores it. -/
theorem from_to_def (t : TemplateDefinition) (hwf : wfDef t = true) :
    TemplateDefinition.from_dict (TemplateDefinition.to_dict t) = t := by
  obtain ⟨nm, blocks⟩ := t
  rw [wfDef] at hwf
  simp only [Bool.and_eq_true, bne_iff_ne, ne_eq] at hwf
  rw [TemplateDefinition.to_dict, TemplateDefinition.from_dict]
  simp [mapGet, mapLookup, pyOr, pyTruthy, pyStr, hwf.1,
    from_to_dictList blocks hwf.2]

/-- Serializing the definition deserialized from a canonical definition
document restores the document. -/
theorem to_from_def (d : Value) (hd : canonicalDefDoc d = true) :
    TemplateDefinition.to_dict (TemplateDefinition.from_dict d) = d := by
  match d with
  | .null => exact Bool.noConfusion hd
  | .bool _ => exact Bool.noConfusion hd
  | .int _ => exact Bool.noConfusion hd
  | .str _ => exact Bool.noConfusion hd
  | .list _ => exact Bool.noConfusion hd
  | .map m =>
    cases m with
    | nil => exact Bool.noConfusion hd
    | cons e1 m =>
    cases m with
    | nil => exact Bool.noConfusion hd
    | cons e2 m =>
    cases m with
    | cons e3 m => exact Bool.noConfusion hd
    | nil =>
      obtain ⟨k1, v1⟩ := e1
      obtain ⟨k2, v2⟩ := e2
      rw [canonicalDefDoc] at hd
      simp only [Bool.and_eq_true, beq_iff_eq] at hd
      obtain ⟨⟨⟨hk1, hv1⟩, hk2⟩, hv2⟩ := hd
      subst hk1; subst hk2
      obtain ⟨nm, rfl, hnm⟩ := nonemptyStrV_ex hv1
      obtain ⟨bs, rfl, hbs⟩ := childrenDocV_ex hv2
      rw [TemplateDefinition.from_dict]
      simp [TemplateDefinition.to_dict, mapGet, mapLookup, pyOr, pyTruthy, pyStr, hnm,
        to_from_dictList bs hbs]

/-- Node whose `label` is the empty string, for the claim-C3
counterexample. -/
def cxBadLabel : TemplateNode := .mk "a" "" [] "group" true none "data" none true []

/-- C3, counterexample to the claim as stated: the node with `label = ""`
does not survive `from_dict(to_dict(...))` — the truthy `or`-chain in
`from_dict` falls back to the id, so the label comes back as `"a"`. -/
theorem C3_cex :
    cxBadLabel.label = "" ∧
    (TemplateNode.from_dict (TemplateNode.to_dict cxBadLabel)).label = "a" ∧
    TemplateNode.from_dict (TemplateNode.to_dict cxBadLabel) ≠ cxBadLabel := by
  have hl : (TemplateNode.from_dict (TemplateNode.to_dict cxBadLabel)).label = "a" := by
    simp only [cxBadLabel, TemplateNode.to_dict]
    rw [TemplateNode.from_dict]
    simp [TemplateNode.label, mapGet, mapGetD, mapLookup, pyOr, pyTruthy, pyStr, toDictList]
  refine ⟨rfl, hl, ?_⟩
  intro he
  have h2 := congrArg TemplateNode.label he
  rw [hl] at h2
  simp [cxBadLabel, TemplateNode.label] at h2

/-- C3 (amended): the round trip holds on both sides away from the
empty-string degeneracies of the truthy `or`-chains: (1) every node
whose `label` and `data_source` are non-empty and whose `generation_id`
is not the empty string (recursively) satisfies
`from_dict(to_dict(x)) = x`, and (2) likewise every definition with a
non-empty name; (3) the `limit` field round-trips for *every* node,
`None` staying `None`; (4) every canonical node document — the ten
serialized keys in `to_dict` order with well-typed values, non-empty
`label`/`dataSource`, `generationId` null or non-empty — satisfies
`to_dict(from_dict(d)) = d`, and (5) likewise every canonical definition
document. -/
theorem C3_roundtrip :
    (∀ x, wfNode x = true → TemplateNode.from_dict (TemplateNode.to_dict x) = x) ∧
    (∀ t, wfDef t = true →
      TemplateDefinition.from_dict (TemplateDefinition.to_dict t) = t) ∧
    (∀ x, (TemplateNode.from_dict (TemplateNode.to_dict x)).limit = x.limit) ∧
    (∀ d, canonicalNodeDoc d = true →
      TemplateNode.to_dict (TemplateNode.from_dict d) = d) ∧
    (∀ d, canonicalDefDoc d = true →
      TemplateDefinition.to_dict (TemplateDefinition.from_dict d) = d) :=
  ⟨from_to_dict, from_to_def, limit_roundtrip, to_from_dict, to_from_def⟩

/-- C3, witness: a concrete well-formed node round-trips, and a concrete
canonical document (the serialization of that node) round-trips the
other way. -/
theorem C3_wit :
    wfNode wOpenapi = true ∧
    TemplateNode.from_dict (TemplateNode.to_dict wOpenapi) = wOpenapi ∧
    canonicalNodeDoc (TemplateNode.to_dict wOpenapi) = true ∧
    TemplateNode.to_dict (TemplateNode.from_dict (TemplateNode.to_dict wOpenapi))
      = TemplateNode.to_dict wOpenapi :=
  ⟨rfl, C3_roundtrip.1 wOpenapi rfl, rfl, C3_roundtrip.2.2.2.1 _ rfl⟩

end TemplateEngine